import Mathlib

/-!
Shallow embedding of the Splendor rules engine
(packages/rules-engine/src: types.ts, validators.ts, availability.ts,
initialization.ts, actions.ts) and proofs of the specification claims.

JavaScript numbers holding gem counts, prestige and rounds are modelled as
`Int`; array indices as `Nat`.  Functions that can throw (or crash on a
non-null assertion `!`) return `Option`; `none` models the exception.
-/

namespace Splendor

/-- The five basic gem colors used for purchasing cards (types.ts `GemColor`). -/
inductive GemColor where
  | emerald
  | diamond
  | sapphire
  | onyx
  | ruby
deriving DecidableEq, Repr

/-- All gem types including gold (types.ts `GemType = GemColor | 'gold'`). -/
inductive GemType where
  | color (c : GemColor)
  | gold
deriving DecidableEq, Repr

/-- A collection of gems keyed by gem type (types.ts `GemCollection`). -/
structure GemCollection where
  emerald : Int
  diamond : Int
  sapphire : Int
  onyx : Int
  ruby : Int
  gold : Int
deriving DecidableEq, Repr

/-- A collection of only colored gems (types.ts `ColoredGemCollection`). -/
structure ColoredGems where
  emerald : Int
  diamond : Int
  sapphire : Int
  onyx : Int
  ruby : Int
deriving DecidableEq, Repr

/-- Field lookup `collection[gemType]`. -/
def GemCollection.get (g : GemCollection) : GemType → Int
  | .color .emerald => g.emerald
  | .color .diamond => g.diamond
  | .color .sapphire => g.sapphire
  | .color .onyx => g.onyx
  | .color .ruby => g.ruby
  | .gold => g.gold

/-- Functional update `collection[gemType] += n` (covers `++`, `--`, `+= k`). -/
def GemCollection.add (g : GemCollection) (t : GemType) (n : Int) : GemCollection :=
  match t with
  | .color .emerald => { g with emerald := g.emerald + n }
  | .color .diamond => { g with diamond := g.diamond + n }
  | .color .sapphire => { g with sapphire := g.sapphire + n }
  | .color .onyx => { g with onyx := g.onyx + n }
  | .color .ruby => { g with ruby := g.ruby + n }
  | .gold => { g with gold := g.gold + n }

/-- Sum of all six entries, as computed inline in `finishTurn`/`getTotalGems`. -/
def GemCollection.total (g : GemCollection) : Int :=
  g.emerald + g.diamond + g.sapphire + g.onyx + g.ruby + g.gold

/-- Field lookup `colored[color]`. -/
def ColoredGems.get (g : ColoredGems) : GemColor → Int
  | .emerald => g.emerald
  | .diamond => g.diamond
  | .sapphire => g.sapphire
  | .onyx => g.onyx
  | .ruby => g.ruby

/-- Functional update `colored[color] += n`. -/
def ColoredGems.add (g : ColoredGems) (c : GemColor) (n : Int) : ColoredGems :=
  match c with
  | .emerald => { g with emerald := g.emerald + n }
  | .diamond => { g with diamond := g.diamond + n }
  | .sapphire => { g with sapphire := g.sapphire + n }
  | .onyx => { g with onyx := g.onyx + n }
  | .ruby => { g with ruby := g.ruby + n }

/-- The constant list `GEM_COLORS` from types.ts. -/
def gemColors : List GemColor :=
  [.emerald, .diamond, .sapphire, .onyx, .ruby]

/-- Card tiers (types.ts `CardTier = 1 | 2 | 3`). -/
inductive Tier where
  | one
  | two
  | three
deriving DecidableEq, Repr

/-- A development card (types.ts `DevelopmentCard`). -/
structure DevelopmentCard where
  id : String
  tier : Tier
  cost : ColoredGems
  bonus : GemColor
  prestigePoints : Int
deriving DecidableEq, Repr

/-- A noble tile (types.ts `Noble`; its `prestigePoints` field is typed as the
literal `3` in the source but is read dynamically by the engine, so it is kept
as a field here). -/
structure Noble where
  id : String
  requirements : ColoredGems
  prestigePoints : Int
deriving DecidableEq, Repr

/-- Complete player state (types.ts `Player`). -/
structure Player where
  id : String
  name : String
  gems : GemCollection
  bonuses : ColoredGems
  reservedCards : List DevelopmentCard
  purchasedCards : List DevelopmentCard
  nobles : List Noble
  prestigePoints : Int
deriving DecidableEq, Repr

/-- The card market; slots hold `none` after a card is removed (the code stores
`null` in the slot, the declared TS element type notwithstanding). -/
structure CardMarket where
  tier1 : List (Option DevelopmentCard)
  tier2 : List (Option DevelopmentCard)
  tier3 : List (Option DevelopmentCard)
deriving DecidableEq, Repr

/-- Remaining deck cards per tier (types.ts `CardDecks`). -/
structure CardDecks where
  tier1 : List DevelopmentCard
  tier2 : List DevelopmentCard
  tier3 : List DevelopmentCard
deriving DecidableEq, Repr

/-- Game phase (types.ts `GamePhase`). -/
inductive GamePhase where
  | waiting
  | playing
  | final_round
  | ended
deriving DecidableEq, Repr

/-- Complete authoritative game state (types.ts `GameState`). -/
structure GameState where
  id : String
  phase : GamePhase
  players : List Player
  currentPlayerIndex : Nat
  bank : GemCollection
  market : CardMarket
  decks : CardDecks
  nobles : List Noble
  round : Int
  endGameTriggeredBy : Option String
  winners : List String
  pendingGemDiscard : Option String
  pendingNobleSelection : Option String
deriving DecidableEq, Repr

/-- Partial gem mapping used by the DISCARD_GEMS payload
(types.ts `Partial GemCollection`); absent keys are `none`. -/
structure OptGems where
  emerald : Option Int
  diamond : Option Int
  sapphire : Option Int
  onyx : Option Int
  ruby : Option Int
  gold : Option Int
deriving DecidableEq, Repr

/-- The present entries of a partial gem mapping, in field order
(models `Object.entries(action.gems)`). -/
def OptGems.entries (g : OptGems) : List (GemType × Int) :=
  (match g.emerald with | some n => [((GemType.color .emerald), n)] | none => []) ++
  (match g.diamond with | some n => [((GemType.color .diamond), n)] | none => []) ++
  (match g.sapphire with | some n => [((GemType.color .sapphire), n)] | none => []) ++
  (match g.onyx with | some n => [((GemType.color .onyx), n)] | none => []) ++
  (match g.ruby with | some n => [((GemType.color .ruby), n)] | none => []) ++
  (match g.gold with | some n => [((GemType.gold), n)] | none => [])

/-- All possible player actions (types.ts `PlayerAction`, a tagged union). -/
inductive PlayerAction where
  | takeThreeGems (playerId : String) (gems : List GemColor)
  | takeTwoGems (playerId : String) (gem : GemColor)
  | reserveCard (playerId : String) (cardId : Option String) (tier : Tier)
  | purchaseCard (playerId : String) (cardId : String)
  | selectNoble (playerId : String) (nobleId : String)
  | discardGems (playerId : String) (gems : OptGems)
deriving DecidableEq, Repr

/-- The `playerId` field shared by every action variant. -/
def PlayerAction.playerId : PlayerAction → String
  | .takeThreeGems pid _ => pid
  | .takeTwoGems pid _ => pid
  | .reserveCard pid _ _ => pid
  | .purchaseCard pid _ => pid
  | .selectNoble pid _ => pid
  | .discardGems pid _ => pid

/-- Whether the action is one of the four main (turn-consuming) actions
(types.ts `MainAction`). -/
def PlayerAction.isMain : PlayerAction → Bool
  | .takeThreeGems _ _ => true
  | .takeTwoGems _ _ => true
  | .reserveCard _ _ _ => true
  | .purchaseCard _ _ => true
  | .selectNoble _ _ => false
  | .discardGems _ _ => false

/-- Validation error codes (types.ts `ValidationErrorCode`). -/
inductive ErrCode where
  | notPlayersTurn
  | insufficientGemsInBank
  | gemsNotDistinct
  | requiresFourGemsForTwo
  | cannotTakeGold
  | maxReservedCards
  | cardNotAvailable
  | insufficientPayment
  | nobleNotEligible
  | mustDiscardGems
  | invalidDiscardAmount
  | gameNotInProgress
  | invalidAction
deriving DecidableEq, Repr

/-- Result of action validation (types.ts `ValidationResult`; the human-readable
`error` message string is not modelled, only the `valid` flag and `errorCode`). -/
structure ValidationResult where
  valid : Bool
  errorCode : Option ErrCode
deriving DecidableEq, Repr

/-- The `\x7b valid: true \x7d` result. -/
def vOk : ValidationResult := ⟨true, none⟩

/-- A `\x7b valid: false, errorCode \x7d` result. -/
def vErr (c : ErrCode) : ValidationResult := ⟨false, some c⟩

/-- Game constants (types.ts `GAME_CONSTANTS.MAX_GEMS`). -/
def MAX_GEMS : Int := 10

/-- Game constants (types.ts `GAME_CONSTANTS.MAX_RESERVED_CARDS`). -/
def MAX_RESERVED_CARDS : Nat := 3

/-- Game constants (types.ts `GAME_CONSTANTS.WINNING_POINTS`). -/
def WINNING_POINTS : Int := 15

/-- Game constants (types.ts `GAME_CONSTANTS.MARKET_SIZE`). -/
def MARKET_SIZE : Nat := 4

/-- Game constants (types.ts `GAME_CONSTANTS.MIN_GEMS_FOR_TAKE_TWO`). -/
def MIN_GEMS_FOR_TAKE_TWO : Int := 4

/-- Gets a player by ID (initialization.ts `getPlayerById`). -/
def getPlayerById (s : GameState) (pid : String) : Option Player :=
  s.players.find? (fun p => p.id == pid)

/-- Gets the current player (initialization.ts `getCurrentPlayer`); `none`
models the crash when `currentPlayerIndex` is out of range. -/
def getCurrentPlayer (s : GameState) : Option Player :=
  s.players.get? s.currentPlayerIndex

/-- Checks if it is the specified player's turn (validators.ts `isPlayersTurn`);
`none` models the crash of `getCurrentPlayer(state).id` on a bad index. -/
def isPlayersTurn (s : GameState) (pid : String) : Option Bool :=
  (getCurrentPlayer s).map (fun p => p.id == pid)

/-- Checks if the game is in a valid playing state (validators.ts
`isGameInProgress`). -/
def isGameInProgress (s : GameState) : Bool :=
  s.phase == .playing || s.phase == .final_round

/-- Finds a card in the market by ID (validators.ts `findCardInMarket`). -/
def findCardInMarket (s : GameState) (cid : String) : Option DevelopmentCard :=
  (s.market.tier1.findSome? (fun slot => slot.bind
      (fun c => if c.id == cid then some c else none))).orElse (fun _ =>
  (s.market.tier2.findSome? (fun slot => slot.bind
      (fun c => if c.id == cid then some c else none))).orElse (fun _ =>
  s.market.tier3.findSome? (fun slot => slot.bind
      (fun c => if c.id == cid then some c else none))))

/-- Gets a deck by tier (validators.ts `getDeckByTier`). -/
def getDeckByTier (s : GameState) : Tier → List DevelopmentCard
  | .one => s.decks.tier1
  | .two => s.decks.tier2
  | .three => s.decks.tier3

/-- Calculates the effective cost of a card after bonuses (validators.ts
`calculateEffectiveCost`): `max(0, cost − bonus)` per color; `none` when the
player or the card (market or that player's reserved list) is not found. -/
def calculateEffectiveCost (s : GameState) (pid cid : String) : Option ColoredGems :=
  match getPlayerById s pid with
  | none => none
  | some player =>
    match (findCardInMarket s cid).orElse
        (fun _ => player.reservedCards.find? (fun c => c.id == cid)) with
    | none => none
    | some card =>
      some {
        emerald := max 0 (card.cost.emerald - player.bonuses.emerald)
        diamond := max 0 (card.cost.diamond - player.bonuses.diamond)
        sapphire := max 0 (card.cost.sapphire - player.bonuses.sapphire)
        onyx := max 0 (card.cost.onyx - player.bonuses.onyx)
        ruby := max 0 (card.cost.ruby - player.bonuses.ruby)
      }

/-- The positive part `if shortfall > 0 then shortfall else 0` accumulated by
the `goldNeeded` loops. -/
def posPart (n : Int) : Int := if n > 0 then n else 0

/-- Checks if a player can afford a card with gold substitution (validators.ts
`canAffordCard`). -/
def canAffordCard (s : GameState) (pid cid : String) : Bool :=
  match getPlayerById s pid with
  | none => false
  | some player =>
    match calculateEffectiveCost s pid cid with
    | none => false
    | some eff =>
      let goldNeeded :=
        posPart (eff.emerald - player.gems.emerald) +
        posPart (eff.diamond - player.gems.diamond) +
        posPart (eff.sapphire - player.gems.sapphire) +
        posPart (eff.onyx - player.gems.onyx) +
        posPart (eff.ruby - player.gems.ruby)
      player.gems.gold ≥ goldNeeded

/-- Gets all nobles the player is eligible for (validators.ts
`getEligibleNobles`): bonus must meet every requirement. -/
def getEligibleNobles (s : GameState) (pid : String) : List String :=
  match getPlayerById s pid with
  | none => []
  | some player =>
    (s.nobles.filter (fun n =>
      gemColors.all (fun c => player.bonuses.get c ≥ n.requirements.get c))).map (·.id)

/-- Calculates total gems a player holds (validators.ts `getTotalGems`). -/
def getTotalGems (s : GameState) (pid : String) : Int :=
  match getPlayerById s pid with
  | none => 0
  | some player => player.gems.total

/-- Checks if a player must discard (validators.ts `needsToDiscardGems`). -/
def needsToDiscardGems (s : GameState) (pid : String) : Bool :=
  getTotalGems s pid > MAX_GEMS

/-- Validates taking 1-3 different gems (validators.ts `validateTakeThreeGems`). -/
def validateTakeThreeGems (s : GameState) (pid : String) (gems : List GemColor) :
    Option ValidationResult :=
  match isPlayersTurn s pid with
  | none => none
  | some t =>
    if !t then some (vErr .notPlayersTurn)
    else if gems.length < 1 || gems.length > 3 then some (vErr .invalidAction)
    else if gems.eraseDups.length != gems.length then some (vErr .gemsNotDistinct)
    else if gems.any (fun g => !(gemColors.contains g)) then some (vErr .cannotTakeGold)
    else if gems.any (fun g => s.bank.get (.color g) < 1) then
      some (vErr .insufficientGemsInBank)
    else some vOk

/-- Validates taking 2 gems of one color (validators.ts `validateTakeTwoGems`). -/
def validateTakeTwoGems (s : GameState) (pid : String) (gem : GemColor) :
    Option ValidationResult :=
  match isPlayersTurn s pid with
  | none => none
  | some t =>
    if !t then some (vErr .notPlayersTurn)
    else if !(gemColors.contains gem) then some (vErr .cannotTakeGold)
    else if s.bank.get (.color gem) < MIN_GEMS_FOR_TAKE_TWO then
      some (vErr .requiresFourGemsForTwo)
    else some vOk

/-- Validates reserving a card (validators.ts `validateReserveCard`). -/
def validateReserveCard (s : GameState) (pid : String) (cardId : Option String)
    (tier : Tier) : Option ValidationResult :=
  match isPlayersTurn s pid with
  | none => none
  | some t =>
    if !t then some (vErr .notPlayersTurn)
    else
      match getPlayerById s pid with
      | none => some (vErr .invalidAction)
      | some player =>
        if player.reservedCards.length ≥ MAX_RESERVED_CARDS then
          some (vErr .maxReservedCards)
        else
          match cardId with
          | some cid =>
            if (findCardInMarket s cid).isNone then some (vErr .cardNotAvailable)
            else some vOk
          | none =>
            if (getDeckByTier s tier).isEmpty then some (vErr .cardNotAvailable)
            else some vOk

/-- Validates purchasing a card (validators.ts `validatePurchaseCard`). -/
def validatePurchaseCard (s : GameState) (pid cid : String) :
    Option ValidationResult :=
  match isPlayersTurn s pid with
  | none => none
  | some t =>
    if !t then some (vErr .notPlayersTurn)
    else
      match getPlayerById s pid with
      | none => some (vErr .invalidAction)
      | some player =>
        match (findCardInMarket s cid).orElse
            (fun _ => player.reservedCards.find? (fun c => c.id == cid)) with
        | none => some (vErr .cardNotAvailable)
        | some _ =>
          if !(canAffordCard s pid cid) then some (vErr .insufficientPayment)
          else some vOk

/-- Validates selecting a noble (validators.ts `validateSelectNoble`); note it
checks neither turn order nor `pendingNobleSelection`. -/
def validateSelectNoble (s : GameState) (pid nid : String) :
    Option ValidationResult :=
  match getPlayerById s pid with
  | none => some (vErr .invalidAction)
  | some player =>
    match s.nobles.find? (fun n => n.id == nid) with
    | none => some (vErr .nobleNotEligible)
    | some noble =>
      if gemColors.any (fun c => player.bonuses.get c < noble.requirements.get c) then
        some (vErr .nobleNotEligible)
      else some vOk

/-- Validates discarding gems (validators.ts `validateDiscardGems`); entries
with negative counts are skipped, exactly as the source's `continue`. -/
def validateDiscardGems (s : GameState) (pid : String) (gems : OptGems) :
    Option ValidationResult :=
  match getPlayerById s pid with
  | none => some (vErr .invalidAction)
  | some player =>
    let totalGems := getTotalGems s pid
    if totalGems ≤ MAX_GEMS then some (vErr .invalidAction)
    else
      let kept := gems.entries.filter (fun e => e.2 ≥ 0)
      if kept.any (fun e => player.gems.get e.1 < e.2) then
        some (vErr .invalidDiscardAmount)
      else
        let totalDiscard := (kept.map (·.2)).sum
        if totalGems - totalDiscard != MAX_GEMS then
          some (vErr .invalidDiscardAmount)
        else some vOk

/-- Validates any player action (validators.ts `validateAction`): phase gate
then dispatch on the action tag. -/
def validateAction (s : GameState) (a : PlayerAction) : Option ValidationResult :=
  if !(isGameInProgress s) then some (vErr .gameNotInProgress)
  else
    match a with
    | .takeThreeGems pid gems => validateTakeThreeGems s pid gems
    | .takeTwoGems pid gem => validateTakeTwoGems s pid gem
    | .reserveCard pid cid tier => validateReserveCard s pid cid tier
    | .purchaseCard pid cid => validatePurchaseCard s pid cid
    | .selectNoble pid nid => validateSelectNoble s pid nid
    | .discardGems pid gems => validateDiscardGems s pid gems

/-- One step of the gold-spreading loop in `getCardShortfall`: given the gold
still available and one color's shortfall, returns the remaining gold and the
reduced shortfall. -/
def goldStep (gold sh : Int) : Int × Int :=
  if gold > 0 && sh > 0 then (gold - min gold sh, sh - min gold sh)
  else (gold, sh)

/-- Gets the gem shortfall for purchasing a card (availability.ts
`getCardShortfall`): per-color positive shortfalls, then available gold is
greedily subtracted across colors in declaration order. -/
def getCardShortfall (s : GameState) (pid cid : String) : ColoredGems :=
  match getPlayerById s pid with
  | none => ⟨0, 0, 0, 0, 0⟩
  | some player =>
    match calculateEffectiveCost s pid cid with
    | none => ⟨0, 0, 0, 0, 0⟩
    | some eff =>
      let r1 := goldStep player.gems.gold (posPart (eff.emerald - player.gems.emerald))
      let r2 := goldStep r1.1 (posPart (eff.diamond - player.gems.diamond))
      let r3 := goldStep r2.1 (posPart (eff.sapphire - player.gems.sapphire))
      let r4 := goldStep r3.1 (posPart (eff.onyx - player.gems.onyx))
      let r5 := goldStep r4.1 (posPart (eff.ruby - player.gems.ruby))
      ⟨r1.2, r2.2, r3.2, r4.2, r5.2⟩

/-- Payment for a card (actions.ts `calculatePayment`): per color pay
`min(required, available)`, fund the rest with gold; `none` when the player or
card is missing or gold is insufficient. -/
structure Payment where
  gems : ColoredGems
  gold : Int
deriving DecidableEq, Repr

/-- Calculates how to pay for a card (actions.ts `calculatePayment`). -/
def calculatePayment (s : GameState) (pid cid : String) : Option Payment :=
  match getPlayerById s pid with
  | none => none
  | some player =>
    match calculateEffectiveCost s pid cid with
    | none => none
    | some eff =>
      let payC := fun (required available : Int) =>
        if required ≤ available then required else available
      let needC := fun (required available : Int) =>
        if required ≤ available then 0 else required - available
      let goldNeeded :=
        needC eff.emerald player.gems.emerald +
        needC eff.diamond player.gems.diamond +
        needC eff.sapphire player.gems.sapphire +
        needC eff.onyx player.gems.onyx +
        needC eff.ruby player.gems.ruby
      if goldNeeded > player.gems.gold then none
      else
        some {
          gems := {
            emerald := payC eff.emerald player.gems.emerald
            diamond := payC eff.diamond player.gems.diamond
            sapphire := payC eff.sapphire player.gems.sapphire
            onyx := payC eff.onyx player.gems.onyx
            ruby := payC eff.ruby player.gems.ruby
          }
          gold := goldNeeded
        }

/-- Replaces the first player whose `id` matches with `f` applied to it;
models in-place mutation of the object returned by `getPlayerById`. -/
def modifyPlayer : List Player → String → (Player → Player) → List Player
  | [], _, _ => []
  | p :: rest, pid, f =>
    if p.id == pid then f p :: rest else p :: modifyPlayer rest pid f

/-- Moves `n` gems of type `t` from the bank to the named player
(`bank[gem] -= n; player.gems[gem] += n`). -/
def moveBankToPlayer (s : GameState) (pid : String) (t : GemType) (n : Int) :
    GameState :=
  { s with
    bank := s.bank.add t (-n)
    players := modifyPlayer s.players pid
      (fun p => { p with gems := p.gems.add t n }) }

/-- Moves `n` gems of type `t` from the named player to the bank
(`player.gems[gem] -= n; bank[gem] += n`). -/
def movePlayerToBank (s : GameState) (pid : String) (t : GemType) (n : Int) :
    GameState :=
  { s with
    bank := s.bank.add t n
    players := modifyPlayer s.players pid
      (fun p => { p with gems := p.gems.add t (-n) }) }

/-- Removes the first slot holding a card with the given id, leaving `none` in
its place (one tier row of actions.ts `removeCardFromMarket`). -/
def removeFromSlots : List (Option DevelopmentCard) → String →
    Option DevelopmentCard × List (Option DevelopmentCard)
  | [], _ => (none, [])
  | slot :: rest, cid =>
    match slot with
    | some c =>
      if c.id == cid then (some c, none :: rest)
      else
        let (r, rest') := removeFromSlots rest cid
        (r, some c :: rest')
    | none =>
      let (r, rest') := removeFromSlots rest cid
      (r, none :: rest')

/-- Removes a card from the market by ID, searching tier1 then tier2 then
tier3 (actions.ts `removeCardFromMarket`). -/
def removeCardFromMarket (m : CardMarket) (cid : String) :
    Option DevelopmentCard × CardMarket :=
  let (r1, t1) := removeFromSlots m.tier1 cid
  match r1 with
  | some c => (some c, { m with tier1 := t1 })
  | none =>
    let (r2, t2) := removeFromSlots m.tier2 cid
    match r2 with
    | some c => (some c, { m with tier2 := t2 })
    | none =>
      let (r3, t3) := removeFromSlots m.tier3 cid
      match r3 with
      | some c => (some c, { m with tier3 := t3 })
      | none => (none, m)

/-- Puts a card into the first `none` slot; `none` when no slot is empty. -/
def fillFirstNull : List (Option DevelopmentCard) → DevelopmentCard →
    Option (List (Option DevelopmentCard))
  | [], _ => none
  | none :: rest, c => some (some c :: rest)
  | some x :: rest, c => (fillFirstNull rest c).map (fun l => some x :: l)

/-- The deck list of a tier (actions.ts `getDeckByTierMutable`, read side). -/
def CardDecks.ofTier (d : CardDecks) : Tier → List DevelopmentCard
  | .one => d.tier1
  | .two => d.tier2
  | .three => d.tier3

/-- Replaces the deck list of a tier. -/
def CardDecks.setTier (d : CardDecks) : Tier → List DevelopmentCard → CardDecks
  | .one, l => { d with tier1 := l }
  | .two, l => { d with tier2 := l }
  | .three, l => { d with tier3 := l }

/-- The market row of a tier (actions.ts `getMarketByTierMutable`, read side). -/
def CardMarket.ofTier (m : CardMarket) : Tier → List (Option DevelopmentCard)
  | .one => m.tier1
  | .two => m.tier2
  | .three => m.tier3

/-- Replaces the market row of a tier. -/
def CardMarket.setTier (m : CardMarket) : Tier → List (Option DevelopmentCard) →
    CardMarket
  | .one, l => { m with tier1 := l }
  | .two, l => { m with tier2 := l }
  | .three, l => { m with tier3 := l }

/-- Refills a market slot from the deck (actions.ts `refillMarketSlot`): shifts
the deck head into the first empty slot, only when the deck is non-empty and an
empty slot exists. -/
def refillMarketSlot (decks : CardDecks) (market : CardMarket) (tier : Tier) :
    CardDecks × CardMarket :=
  match decks.ofTier tier with
  | [] => (decks, market)
  | c :: ds =>
    match fillFirstNull (market.ofTier tier) c with
    | none => (decks, market)
    | some row => (decks.setTier tier ds, market.setTier tier row)

/-- Map a function over the first player with the given id (fields other than
those written by `f` are untouched). -/
def updatePlayer (s : GameState) (pid : String) (f : Player → Player) : GameState :=
  { s with players := modifyPlayer s.players pid f }

/-- Determines the winners of a completed game (actions.ts `determineWinners`):
highest prestige, then fewest purchased cards, remaining ties share the win. -/
def determineWinners (s : GameState) : List String :=
  match s.players with
  | [] => []
  | p0 :: rest =>
    let maxPoints := rest.foldl (fun acc p => max acc p.prestigePoints) p0.prestigePoints
    let candidates := (p0 :: rest).filter (fun p => p.prestigePoints == maxPoints)
    match candidates with
    | [c] => [c.id]
    | _ =>
      let minCards :=
        match candidates with
        | [] => 0
        | c0 :: cs =>
          cs.foldl (fun acc p => min acc (p.purchasedCards.length : Int))
            (c0.purchasedCards.length : Int)
      (candidates.filter (fun p => (p.purchasedCards.length : Int) == minCards)).map (·.id)

/-- Checks whether the final round is over (actions.ts `checkGameEnd`): in
`final_round`, set phase to `ended` and compute winners. -/
def checkGameEnd (s : GameState) : GameState :=
  if s.phase != .final_round then s
  else { s with phase := .ended, winners := determineWinners s }

/-- Checks the end-game trigger (actions.ts `checkGameEndTrigger`): first
player at 15+ prestige flips the phase to `final_round`. -/
def checkGameEndTrigger (s : GameState) : GameState :=
  if s.phase == .final_round || s.phase == .ended then s
  else
    match s.players.find? (fun p => p.prestigePoints ≥ WINNING_POINTS) with
    | some p => { s with endGameTriggeredBy := some p.id, phase := .final_round }
    | none => s

/-- Advances to the next player's turn (actions.ts `advanceTurn`). -/
def advanceTurn (s : GameState) : GameState :=
  if s.phase == .ended then s
  else
    let i := (s.currentPlayerIndex + 1) % s.players.length
    let s1 := { s with currentPlayerIndex := i }
    if i == 0 then
      let s2 := { s1 with round := s1.round + 1 }
      if s2.phase == .final_round then checkGameEnd s2 else s2
    else s1

/-- Game-end check then turn advance (actions.ts `checkGameEndAndAdvance`). -/
def checkGameEndAndAdvance (s : GameState) : GameState :=
  advanceTurn (checkGameEndTrigger s)

/-- Noble check after the gem limit is resolved (actions.ts
`checkNobleAndAdvance`): one eligible noble is auto-awarded, several set
`pendingNobleSelection`, zero proceed to advance. -/
def checkNobleAndAdvance (s : GameState) (pid : String) : GameState :=
  match getEligibleNobles s pid with
  | [nid] =>
    let s' :=
      match s.nobles.find? (fun n => n.id == nid) with
      | some noble =>
        { updatePlayer s pid (fun p =>
            { p with
              nobles := p.nobles ++ [noble]
              prestigePoints := p.prestigePoints + noble.prestigePoints })
          with nobles := s.nobles.eraseP (fun n => n.id == nid) }
      | none => s
    checkGameEndAndAdvance s'
  | [] => checkGameEndAndAdvance s
  | _ => { s with pendingNobleSelection := some pid }

/-- Common end-of-turn logic (actions.ts `finishTurn`): gem-limit check first;
`none` models the non-null assertion on a missing player. -/
def finishTurn (s : GameState) (pid : String) : Option GameState :=
  match getPlayerById s pid with
  | none => none
  | some player =>
    if player.gems.total > MAX_GEMS then
      some { s with pendingGemDiscard := some pid }
    else
      some (checkNobleAndAdvance s pid)

/-- Applies taking 1-3 different gems (actions.ts `applyTakeThreeGems`). -/
def applyTakeThreeGems (s : GameState) (pid : String) (gems : List GemColor) :
    Option GameState :=
  match getPlayerById s pid with
  | none => none
  | some _ =>
    let s1 := gems.foldl (fun st g => moveBankToPlayer st pid (.color g) 1) s
    finishTurn s1 pid

/-- Applies taking 2 gems of the same color (actions.ts `applyTakeTwoGems`). -/
def applyTakeTwoGems (s : GameState) (pid : String) (gem : GemColor) :
    Option GameState :=
  match getPlayerById s pid with
  | none => none
  | some _ =>
    finishTurn (moveBankToPlayer s pid (.color gem) 2) pid

/-- The card-acquisition step of `applyReserveCard`: take a market card (and
refill its slot) or shift the head of the named tier's deck. -/
def reserveDraw (s : GameState) (cardId : Option String) (tier : Tier) :
    Option DevelopmentCard × GameState :=
  match cardId with
  | some cid =>
    let rm := removeCardFromMarket s.market cid
    match rm.1 with
    | some c =>
      let fm := refillMarketSlot s.decks rm.2 c.tier
      (some c, { s with market := fm.2, decks := fm.1 })
    | none => (none, { s with market := rm.2 })
  | none =>
    match s.decks.ofTier tier with
    | [] => (none, s)
    | c :: ds => (some c, { s with decks := s.decks.setTier tier ds })

/-- Applies reserving a card (actions.ts `applyReserveCard`). -/
def applyReserveCard (s : GameState) (pid : String) (cardId : Option String)
    (tier : Tier) : Option GameState :=
  match getPlayerById s pid with
  | none => none
  | some _ =>
    let dr := reserveDraw s cardId tier
    let s2 :=
      match dr.1 with
      | some c => updatePlayer dr.2 pid
          (fun p => { p with reservedCards := p.reservedCards ++ [c] })
      | none => dr.2
    let s3 := if s2.bank.gold > 0 then moveBankToPlayer s2 pid .gold 1 else s2
    finishTurn s3 pid

/-- Applies purchasing a card (actions.ts `applyPurchaseCard`); `none` models
the `Cannot afford card` and `Card not found` throws. -/
def applyPurchaseCard (s : GameState) (pid cid : String) : Option GameState :=
  match getPlayerById s pid with
  | none => none
  | some player =>
    match calculatePayment s pid cid with
    | none => none
    | some payment =>
      let rm := removeCardFromMarket s.market cid
      let found : Option (DevelopmentCard × Bool × GameState) :=
        match rm.1 with
        | some c => some (c, false, { s with market := rm.2 })
        | none =>
          match player.reservedCards.find? (fun c => c.id == cid) with
          | some c =>
            some (c, true, updatePlayer s pid (fun p =>
              { p with reservedCards := p.reservedCards.eraseP (fun c => c.id == cid) }))
          | none => none
      match found with
      | none => none
      | some (card, fromReserved, s1) =>
        let s2 := gemColors.foldl
          (fun st c => movePlayerToBank st pid (.color c) (payment.gems.get c)) s1
        let s3 := movePlayerToBank s2 pid .gold payment.gold
        let s4 := updatePlayer s3 pid (fun p =>
          { p with
            purchasedCards := p.purchasedCards ++ [card]
            bonuses := p.bonuses.add card.bonus 1
            prestigePoints := p.prestigePoints + card.prestigePoints })
        let s5 :=
          if fromReserved then s4
          else
            let fm := refillMarketSlot s4.decks s4.market card.tier
            { s4 with market := fm.2, decks := fm.1 }
        finishTurn s5 pid

/-- Applies selecting a noble (actions.ts `applySelectNoble`); `none` models
the `Noble not found` throw and the crash on a missing player. -/
def applySelectNoble (s : GameState) (pid nid : String) : Option GameState :=
  match s.nobles.find? (fun n => n.id == nid) with
  | none => none
  | some noble =>
    match getPlayerById s pid with
    | none => none
    | some _ =>
      let s1 :=
        { updatePlayer s pid (fun p =>
            { p with
              nobles := p.nobles ++ [noble]
              prestigePoints := p.prestigePoints + noble.prestigePoints })
          with
          nobles := s.nobles.eraseP (fun n => n.id == nid)
          pendingNobleSelection := none }
      some (checkGameEndAndAdvance s1)

/-- Applies discarding gems (actions.ts `applyDiscardGems`); the player is only
dereferenced when some entry is positive, exactly as in the source loop. -/
def applyDiscardGems (s : GameState) (pid : String) (gems : OptGems) :
    Option GameState :=
  let positives := gems.entries.filter (fun e => e.2 > 0)
  if positives.length ≠ 0 && (getPlayerById s pid).isNone then none
  else
    let s1 := positives.foldl (fun st e => movePlayerToBank st pid e.1 e.2) s
    some (checkNobleAndAdvance { s1 with pendingGemDiscard := none } pid)

/-- Applies an action without validation (actions.ts `applyActionUnsafe`). -/
def applyActionUnsafe (s : GameState) (a : PlayerAction) : Option GameState :=
  match a with
  | .takeThreeGems pid gems => applyTakeThreeGems s pid gems
  | .takeTwoGems pid gem => applyTakeTwoGems s pid gem
  | .reserveCard pid cid tier => applyReserveCard s pid cid tier
  | .purchaseCard pid cid => applyPurchaseCard s pid cid
  | .selectNoble pid nid => applySelectNoble s pid nid
  | .discardGems pid gems => applyDiscardGems s pid gems

/-- Applies an action to the game state (actions.ts `applyAction`): validates
first, `none` models the throw on an invalid action. -/
def applyAction (s : GameState) (a : PlayerAction) : Option GameState :=
  match validateAction s a with
  | none => none
  | some v => if v.valid then applyActionUnsafe s a else none

/-- Number of players allowed by a game (types.ts `playerCount: 2 | 3 | 4`). -/
inductive PlayerCount where
  | two
  | three
  | four
deriving DecidableEq, Repr

/-- Numeric value of the player count literal. -/
def PlayerCount.toNat : PlayerCount → Nat
  | .two => 2
  | .three => 3
  | .four => 4

/-- Configuration for game setup (types.ts `GameConfig`). -/
structure GameConfig where
  playerCount : PlayerCount
deriving DecidableEq, Repr

/-- Initial (colored, gold) bank counts per player count
(types.ts `INITIAL_GEM_COUNTS`). -/
def initialGemCounts : PlayerCount → Int × Int
  | .two => (4, 5)
  | .three => (5, 5)
  | .four => (7, 5)

/-- Creates an empty gem collection (initialization.ts
`createEmptyGemCollection`). -/
def createEmptyGemCollection : GemCollection := ⟨0, 0, 0, 0, 0, 0⟩

/-- Creates an empty colored gem collection (initialization.ts
`createEmptyColoredGemCollection`). -/
def createEmptyColoredGemCollection : ColoredGems := ⟨0, 0, 0, 0, 0⟩

/-- Creates the initial bank gem supply (initialization.ts
`createInitialBank`). -/
def createInitialBank (pc : PlayerCount) : GemCollection :=
  let counts := initialGemCounts pc
  ⟨counts.1, counts.1, counts.1, counts.1, counts.1, counts.2⟩

/-- Creates a new player with initial state (initialization.ts `createPlayer`). -/
def createPlayer (id name : String) : Player :=
  ⟨id, name, createEmptyGemCollection, createEmptyColoredGemCollection, [], [], [], 0⟩

/-- Swap two positions of a list (the destructuring swap in `shuffleArray`). -/
def listSwap {α : Type} (l : List α) (i j : Nat) : List α :=
  match l.get? i, l.get? j with
  | some x, some y => (l.set i y).set j x
  | _, _ => l

/-- Descending Fisher-Yates loop from index `i` down to 1; `rand k` abstracts
the k-th draw `Math.floor(randomFn() * (i + 1))`, reduced into range by `%`. -/
def fyAux {α : Type} (rand : Nat → Nat) : Nat → List α → Nat → List α × Nat
  | 0, a, k => (a, k)
  | i + 1, a, k => fyAux rand i (listSwap a (i + 1) (rand k % (i + 2))) (k + 1)

/-- Fisher-Yates shuffle with an injectable random source (initialization.ts
`shuffleArray`); the counter `k` threads the position in the random stream. -/
def shuffleArray {α : Type} (l : List α) (rand : Nat → Nat) (k : Nat) :
    List α × Nat :=
  fyAux rand (l.length - 1) l k

/-- Tier 1 development cards (data/cards.ts `TIER_1_CARDS`); cost fields are in
the order emerald, diamond, sapphire, onyx, ruby. -/
def TIER_1_CARDS : List DevelopmentCard := [
  ⟨"t1_d01", .one, ⟨1, 0, 1, 1, 1⟩, .diamond, 0⟩,
  ⟨"t1_d02", .one, ⟨2, 0, 1, 1, 1⟩, .diamond, 0⟩,
  ⟨"t1_d03", .one, ⟨2, 0, 2, 1, 0⟩, .diamond, 0⟩,
  ⟨"t1_d04", .one, ⟨3, 0, 0, 1, 1⟩, .diamond, 0⟩,
  ⟨"t1_d05", .one, ⟨0, 0, 3, 0, 0⟩, .diamond, 0⟩,
  ⟨"t1_d06", .one, ⟨0, 0, 2, 2, 0⟩, .diamond, 0⟩,
  ⟨"t1_d07", .one, ⟨2, 0, 2, 0, 1⟩, .diamond, 0⟩,
  ⟨"t1_d08", .one, ⟨0, 0, 0, 4, 0⟩, .diamond, 1⟩,
  ⟨"t1_s01", .one, ⟨1, 1, 0, 1, 1⟩, .sapphire, 0⟩,
  ⟨"t1_s02", .one, ⟨1, 1, 0, 1, 2⟩, .sapphire, 0⟩,
  ⟨"t1_s03", .one, ⟨2, 1, 0, 0, 2⟩, .sapphire, 0⟩,
  ⟨"t1_s04", .one, ⟨3, 1, 0, 0, 1⟩, .sapphire, 0⟩,
  ⟨"t1_s05", .one, ⟨0, 0, 0, 3, 0⟩, .sapphire, 0⟩,
  ⟨"t1_s06", .one, ⟨2, 0, 0, 2, 0⟩, .sapphire, 0⟩,
  ⟨"t1_s07", .one, ⟨2, 1, 0, 2, 0⟩, .sapphire, 0⟩,
  ⟨"t1_s08", .one, ⟨0, 0, 0, 0, 4⟩, .sapphire, 1⟩,
  ⟨"t1_e01", .one, ⟨0, 1, 1, 1, 1⟩, .emerald, 0⟩,
  ⟨"t1_e02", .one, ⟨0, 1, 1, 2, 1⟩, .emerald, 0⟩,
  ⟨"t1_e03", .one, ⟨0, 0, 1, 2, 2⟩, .emerald, 0⟩,
  ⟨"t1_e04", .one, ⟨1, 1, 3, 0, 0⟩, .emerald, 0⟩,
  ⟨"t1_e05", .one, ⟨0, 0, 0, 0, 3⟩, .emerald, 0⟩,
  ⟨"t1_e06", .one, ⟨0, 0, 2, 0, 2⟩, .emerald, 0⟩,
  ⟨"t1_e07", .one, ⟨0, 2, 1, 2, 0⟩, .emerald, 0⟩,
  ⟨"t1_e08", .one, ⟨0, 0, 4, 0, 0⟩, .emerald, 1⟩,
  ⟨"t1_r01", .one, ⟨1, 1, 1, 1, 0⟩, .ruby, 0⟩,
  ⟨"t1_r02", .one, ⟨1, 2, 1, 1, 0⟩, .ruby, 0⟩,
  ⟨"t1_r03", .one, ⟨1, 2, 0, 2, 0⟩, .ruby, 0⟩,
  ⟨"t1_r04", .one, ⟨0, 1, 0, 3, 1⟩, .ruby, 0⟩,
  ⟨"t1_r05", .one, ⟨0, 3, 0, 0, 0⟩, .ruby, 0⟩,
  ⟨"t1_r06", .one, ⟨2, 2, 0, 0, 0⟩, .ruby, 0⟩,
  ⟨"t1_r07", .one, ⟨1, 2, 2, 0, 0⟩, .ruby, 0⟩,
  ⟨"t1_r08", .one, ⟨4, 0, 0, 0, 0⟩, .ruby, 1⟩,
  ⟨"t1_o01", .one, ⟨1, 1, 1, 0, 1⟩, .onyx, 0⟩,
  ⟨"t1_o02", .one, ⟨1, 1, 2, 0, 1⟩, .onyx, 0⟩,
  ⟨"t1_o03", .one, ⟨0, 2, 2, 0, 1⟩, .onyx, 0⟩,
  ⟨"t1_o04", .one, ⟨3, 0, 1, 0, 1⟩, .onyx, 0⟩,
  ⟨"t1_o05", .one, ⟨3, 0, 0, 0, 0⟩, .onyx, 0⟩,
  ⟨"t1_o06", .one, ⟨0, 2, 0, 0, 2⟩, .onyx, 0⟩,
  ⟨"t1_o07", .one, ⟨2, 0, 0, 2, 1⟩, .onyx, 0⟩,
  ⟨"t1_o08", .one, ⟨0, 4, 0, 0, 0⟩, .onyx, 1⟩]

/-- Tier 2 development cards (data/cards.ts `TIER_2_CARDS`). -/
def TIER_2_CARDS : List DevelopmentCard := [
  ⟨"t2_d01", .two, ⟨3, 0, 2, 2, 0⟩, .diamond, 1⟩,
  ⟨"t2_d02", .two, ⟨2, 0, 0, 3, 3⟩, .diamond, 1⟩,
  ⟨"t2_d03", .two, ⟨0, 5, 3, 0, 0⟩, .diamond, 2⟩,
  ⟨"t2_d04", .two, ⟨0, 0, 0, 0, 5⟩, .diamond, 2⟩,
  ⟨"t2_d05", .two, ⟨0, 0, 0, 3, 5⟩, .diamond, 2⟩,
  ⟨"t2_d06", .two, ⟨0, 0, 0, 0, 6⟩, .diamond, 3⟩,
  ⟨"t2_s01", .two, ⟨2, 2, 0, 0, 3⟩, .sapphire, 1⟩,
  ⟨"t2_s02", .two, ⟨3, 3, 0, 2, 0⟩, .sapphire, 1⟩,
  ⟨"t2_s03", .two, ⟨3, 0, 5, 0, 0⟩, .sapphire, 2⟩,
  ⟨"t2_s04", .two, ⟨0, 5, 0, 0, 0⟩, .sapphire, 2⟩,
  ⟨"t2_s05", .two, ⟨3, 5, 0, 0, 0⟩, .sapphire, 2⟩,
  ⟨"t2_s06", .two, ⟨0, 6, 0, 0, 0⟩, .sapphire, 3⟩,
  ⟨"t2_e01", .two, ⟨0, 2, 3, 2, 0⟩, .emerald, 1⟩,
  ⟨"t2_e02", .two, ⟨0, 3, 2, 0, 3⟩, .emerald, 1⟩,
  ⟨"t2_e03", .two, ⟨5, 0, 0, 0, 3⟩, .emerald, 2⟩,
  ⟨"t2_e04", .two, ⟨0, 0, 5, 0, 0⟩, .emerald, 2⟩,
  ⟨"t2_e05", .two, ⟨0, 0, 5, 0, 3⟩, .emerald, 2⟩,
  ⟨"t2_e06", .two, ⟨0, 0, 6, 0, 0⟩, .emerald, 3⟩,
  ⟨"t2_r01", .two, ⟨3, 0, 2, 3, 0⟩, .ruby, 1⟩,
  ⟨"t2_r02", .two, ⟨0, 2, 2, 3, 0⟩, .ruby, 1⟩,
  ⟨"t2_r03", .two, ⟨0, 3, 0, 0, 5⟩, .ruby, 2⟩,
  ⟨"t2_r04", .two, ⟨0, 0, 0, 5, 0⟩, .ruby, 2⟩,
  ⟨"t2_r05", .two, ⟨0, 3, 0, 5, 0⟩, .ruby, 2⟩,
  ⟨"t2_r06", .two, ⟨0, 0, 0, 6, 0⟩, .ruby, 3⟩,
  ⟨"t2_o01", .two, ⟨0, 3, 3, 0, 2⟩, .onyx, 1⟩,
  ⟨"t2_o02", .two, ⟨2, 0, 3, 0, 2⟩, .onyx, 1⟩,
  ⟨"t2_o03", .two, ⟨3, 0, 0, 5, 0⟩, .onyx, 2⟩,
  ⟨"t2_o04", .two, ⟨5, 0, 0, 0, 0⟩, .onyx, 2⟩,
  ⟨"t2_o05", .two, ⟨5, 3, 0, 0, 0⟩, .onyx, 2⟩,
  ⟨"t2_o06", .two, ⟨6, 0, 0, 0, 0⟩, .onyx, 3⟩]

/-- Tier 3 development cards (data/cards.ts `TIER_3_CARDS`). -/
def TIER_3_CARDS : List DevelopmentCard := [
  ⟨"t3_d01", .three, ⟨3, 0, 3, 5, 3⟩, .diamond, 3⟩,
  ⟨"t3_d02", .three, ⟨0, 0, 0, 7, 0⟩, .diamond, 4⟩,
  ⟨"t3_d03", .three, ⟨0, 3, 0, 7, 0⟩, .diamond, 4⟩,
  ⟨"t3_d04", .three, ⟨0, 0, 0, 7, 3⟩, .diamond, 5⟩,
  ⟨"t3_s01", .three, ⟨3, 3, 0, 3, 5⟩, .sapphire, 3⟩,
  ⟨"t3_s02", .three, ⟨0, 7, 0, 0, 0⟩, .sapphire, 4⟩,
  ⟨"t3_s03", .three, ⟨0, 7, 3, 0, 0⟩, .sapphire, 4⟩,
  ⟨"t3_s04", .three, ⟨0, 7, 0, 3, 0⟩, .sapphire, 5⟩,
  ⟨"t3_e01", .three, ⟨0, 3, 5, 3, 3⟩, .emerald, 3⟩,
  ⟨"t3_e02", .three, ⟨0, 0, 7, 0, 0⟩, .emerald, 4⟩,
  ⟨"t3_e03", .three, ⟨3, 0, 7, 0, 0⟩, .emerald, 4⟩,
  ⟨"t3_e04", .three, ⟨0, 3, 7, 0, 0⟩, .emerald, 5⟩,
  ⟨"t3_r01", .three, ⟨3, 5, 3, 3, 0⟩, .ruby, 3⟩,
  ⟨"t3_r02", .three, ⟨7, 0, 0, 0, 0⟩, .ruby, 4⟩,
  ⟨"t3_r03", .three, ⟨7, 0, 0, 0, 3⟩, .ruby, 4⟩,
  ⟨"t3_r04", .three, ⟨7, 0, 3, 0, 0⟩, .ruby, 5⟩,
  ⟨"t3_o01", .three, ⟨5, 3, 3, 0, 3⟩, .onyx, 3⟩,
  ⟨"t3_o02", .three, ⟨0, 0, 0, 0, 7⟩, .onyx, 4⟩,
  ⟨"t3_o03", .three, ⟨0, 0, 0, 3, 7⟩, .onyx, 4⟩,
  ⟨"t3_o04", .three, ⟨3, 0, 0, 0, 7⟩, .onyx, 5⟩]

/-- The ten noble tiles (data/cards.ts `NOBLES`). -/
def NOBLES : List Noble := [
  ⟨"noble_01", ⟨0, 4, 0, 4, 0⟩, 3⟩,
  ⟨"noble_02", ⟨4, 0, 4, 0, 0⟩, 3⟩,
  ⟨"noble_03", ⟨4, 0, 0, 0, 4⟩, 3⟩,
  ⟨"noble_04", ⟨0, 0, 0, 4, 4⟩, 3⟩,
  ⟨"noble_05", ⟨0, 3, 3, 3, 0⟩, 3⟩,
  ⟨"noble_06", ⟨3, 3, 3, 0, 0⟩, 3⟩,
  ⟨"noble_07", ⟨3, 0, 3, 0, 3⟩, 3⟩,
  ⟨"noble_08", ⟨3, 0, 0, 3, 3⟩, 3⟩,
  ⟨"noble_09", ⟨0, 3, 0, 3, 3⟩, 3⟩,
  ⟨"noble_10", ⟨3, 3, 0, 3, 0⟩, 3⟩]

/-- Catalog lookup by tier (data/cards.ts `getCardsByTier`). -/
def getCardsByTier : Tier → List DevelopmentCard
  | .one => TIER_1_CARDS
  | .two => TIER_2_CARDS
  | .three => TIER_3_CARDS

/-- Creates and shuffles the three card decks (initialization.ts
`createShuffledDecks`), consuming the random stream in tier order. -/
def createShuffledDecks (rand : Nat → Nat) (k : Nat) : CardDecks × Nat :=
  let (t1, k1) := shuffleArray (getCardsByTier .one) rand k
  let (t2, k2) := shuffleArray (getCardsByTier .two) rand k1
  let (t3, k3) := shuffleArray (getCardsByTier .three) rand k2
  (⟨t1, t2, t3⟩, k3)

/-- Creates the initial market and remaining decks (initialization.ts
`createInitialMarket`): reveal the top `MARKET_SIZE` cards per tier. -/
def createInitialMarket (decks : CardDecks) : CardMarket × CardDecks :=
  (⟨(decks.tier1.take MARKET_SIZE).map some,
    (decks.tier2.take MARKET_SIZE).map some,
    (decks.tier3.take MARKET_SIZE).map some⟩,
   ⟨decks.tier1.drop MARKET_SIZE,
    decks.tier2.drop MARKET_SIZE,
    decks.tier3.drop MARKET_SIZE⟩)

/-- Selects `playerCount + 1` nobles at random (initialization.ts
`selectNobles`). -/
def selectNobles (pc : PlayerCount) (rand : Nat → Nat) (k : Nat) :
    List Noble × Nat :=
  let (shuffled, k') := shuffleArray NOBLES rand k
  (shuffled.take (pc.toNat + 1), k')

/-- Game id (initialization.ts `generateGameId` reads the wall clock and a
random suffix; both are impure, so the id is modelled as a constant — no claim
depends on it). -/
def generateGameId : String := "game"

/-- Creates a new game (initialization.ts `createGame`); `none` models the
throw on a player-count mismatch.  The injected random source is threaded in
source call order: player order, then the three decks, then nobles. -/
def createGame (config : GameConfig) (playerInfos : List (String × String))
    (rand : Nat → Nat) : Option GameState :=
  if playerInfos.length ≠ config.playerCount.toNat then none
  else
    let players := playerInfos.map (fun info => createPlayer info.1 info.2)
    let (orderedPlayers, k1) := shuffleArray players rand 0
    let bank := createInitialBank config.playerCount
    let (shuffledDecks, k2) := createShuffledDecks rand k1
    let (market, remainingDecks) := createInitialMarket shuffledDecks
    let (nobles, _) := selectNobles config.playerCount rand k2
    some {
      id := generateGameId
      phase := .playing
      players := orderedPlayers
      currentPlayerIndex := 0
      bank := bank
      market := market
      decks := remainingDecks
      nobles := nobles
      round := 1
      endGameTriggeredBy := none
      winners := []
      pendingGemDiscard := none
      pendingNobleSelection := none }

/-! Groundwork lemmas about the embedded operations. -/

/-- Per-player gem count summed over a player list. -/
def sumPlayersGems (ps : List Player) (t : GemType) : Int :=
  (ps.map (fun p => p.gems.get t)).sum

/-- Total number of tokens of one gem type in a state: bank plus all players'
holdings (the conserved quantity of the token-conservation property). -/
def stateTotal (s : GameState) (t : GemType) : Int :=
  s.bank.get t + sumPlayersGems s.players t

theorem GemCollection.get_add (g : GemCollection) (t t' : GemType) (n : Int) :
    (g.add t n).get t' = if t' = t then g.get t' + n else g.get t' := by
  cases t with
  | color c =>
    cases t' with
    | color c' => cases c <;> cases c' <;> simp [GemCollection.add, GemCollection.get]
    | gold => cases c <;> simp [GemCollection.add, GemCollection.get]
  | gold =>
    cases t' with
    | color c' => cases c' <;> simp [GemCollection.add, GemCollection.get]
    | gold => simp [GemCollection.add, GemCollection.get]

theorem GemCollection.total_add (g : GemCollection) (t : GemType) (n : Int) :
    (g.add t n).total = g.total + n := by
  rcases t with c | _ <;> first
  | (cases c <;> simp [GemCollection.add, GemCollection.total] <;> ring)
  | (simp [GemCollection.add, GemCollection.total]; ring)

theorem sumPlayersGems_nil (t : GemType) : sumPlayersGems [] t = 0 := rfl

theorem sumPlayersGems_cons (p : Player) (ps : List Player) (t : GemType) :
    sumPlayersGems (p :: ps) t = p.gems.get t + sumPlayersGems ps t := by
  simp [sumPlayersGems]

theorem modifyPlayer_nil (pid : String) (f : Player → Player) :
    modifyPlayer [] pid f = [] := rfl

theorem modifyPlayer_cons (p : Player) (ps : List Player) (pid : String)
    (f : Player → Player) :
    modifyPlayer (p :: ps) pid f =
      if p.id == pid then f p :: ps else p :: modifyPlayer ps pid f := rfl

theorem findPid_cons_pos (p : Player) (rest : List Player) (pid : String)
    (h : (p.id == pid) = true) :
    (p :: rest).find? (fun q => q.id == pid) = some p :=
  List.find?_cons_of_pos rest h

theorem findPid_cons_neg (p : Player) (rest : List Player) (pid : String)
    (h : (p.id == pid) = false) :
    (p :: rest).find? (fun q => q.id == pid) = rest.find? (fun q => q.id == pid) :=
  List.find?_cons_of_neg rest (by simp [h])

theorem sumPlayersGems_modifyPlayer (ps : List Player) (pid : String)
    (f : Player → Player) (t : GemType) (d : Int)
    (hf : ∀ p, (f p).gems.get t = p.gems.get t + d) :
    sumPlayersGems (modifyPlayer ps pid f) t =
      sumPlayersGems ps t +
        (if (ps.find? (fun p => p.id == pid)).isSome then d else 0) := by
  induction ps with
  | nil => simp [sumPlayersGems, modifyPlayer]
  | cons p rest ih =>
    cases hp : (p.id == pid) with
    | true =>
      rw [modifyPlayer_cons, if_pos hp, findPid_cons_pos p rest pid hp,
        sumPlayersGems_cons, sumPlayersGems_cons, hf p]
      simp
      ring
    | false =>
      rw [modifyPlayer_cons, if_neg (by simp [hp]), findPid_cons_neg p rest pid hp,
        sumPlayersGems_cons, sumPlayersGems_cons, ih]
      ring

theorem find?_map_modifyPlayer {β : Type} (ps : List Player) (pid pid' : String)
    (f : Player → Player) (π : Player → β)
    (hid : ∀ p, (f p).id = p.id) (hπ : ∀ p, π (f p) = π p) :
    ((modifyPlayer ps pid f).find? (fun p => p.id == pid')).map π =
      (ps.find? (fun p => p.id == pid')).map π := by
  induction ps with
  | nil => rfl
  | cons p rest ih =>
    cases hp : (p.id == pid) with
    | true =>
      rw [modifyPlayer_cons, if_pos hp]
      cases hp' : (p.id == pid') with
      | true =>
        have hf' : ((f p).id == pid') = true := by rw [hid p]; exact hp'
        rw [findPid_cons_pos (f p) rest pid' hf', findPid_cons_pos p rest pid' hp']
        simp [hπ p]
      | false =>
        have hf' : ((f p).id == pid') = false := by rw [hid p]; exact hp'
        rw [findPid_cons_neg (f p) rest pid' hf', findPid_cons_neg p rest pid' hp']
    | false =>
      rw [modifyPlayer_cons, if_neg (by simp [hp])]
      cases hp' : (p.id == pid') with
      | true =>
        rw [findPid_cons_pos p (modifyPlayer rest pid f) pid' hp',
          findPid_cons_pos p rest pid' hp']
      | false =>
        rw [findPid_cons_neg p (modifyPlayer rest pid f) pid' hp',
          findPid_cons_neg p rest pid' hp']
        exact ih

theorem find?_isSome_modifyPlayer (ps : List Player) (pid pid' : String)
    (f : Player → Player) (hid : ∀ p, (f p).id = p.id) :
    ((modifyPlayer ps pid f).find? (fun p => p.id == pid')).isSome =
      (ps.find? (fun p => p.id == pid')).isSome := by
  have h := find?_map_modifyPlayer ps pid pid' f (fun _ => ()) hid (fun _ => rfl)
  cases h1 : (modifyPlayer ps pid f).find? (fun p => p.id == pid') <;>
    cases h2 : ps.find? (fun p => p.id == pid') <;>
      simp [h1, h2] at h ⊢

theorem stateTotal_congr (s s' : GameState) (t : GemType)
    (hb : s'.bank = s.bank) (hp : s'.players = s.players) :
    stateTotal s' t = stateTotal s t := by
  unfold stateTotal
  rw [hb, hp]

theorem players_moveBankToPlayer (s : GameState) (pid : String) (t : GemType)
    (n : Int) :
    (moveBankToPlayer s pid t n).players =
      modifyPlayer s.players pid (fun p => { p with gems := p.gems.add t n }) := rfl

theorem bank_moveBankToPlayer (s : GameState) (pid : String) (t : GemType)
    (n : Int) :
    (moveBankToPlayer s pid t n).bank = s.bank.add t (-n) := rfl

theorem stateTotal_moveBankToPlayer (s : GameState) (pid : String) (t : GemType)
    (n : Int) (t' : GemType) (h : (getPlayerById s pid).isSome = true) :
    stateTotal (moveBankToPlayer s pid t n) t' = stateTotal s t' := by
  unfold stateTotal
  rw [players_moveBankToPlayer, bank_moveBankToPlayer, GemCollection.get_add,
    sumPlayersGems_modifyPlayer s.players pid _ t' (if t' = t then n else 0)
      (fun p => by rw [GemCollection.get_add]; split <;> simp)]
  unfold getPlayerById at h
  rw [if_pos h]
  split <;> ring

theorem getPlayerById_isSome_moveBankToPlayer (s : GameState) (pid pid' : String)
    (t : GemType) (n : Int) :
    (getPlayerById (moveBankToPlayer s pid t n) pid').isSome =
      (getPlayerById s pid').isSome := by
  unfold getPlayerById
  rw [players_moveBankToPlayer]
  exact find?_isSome_modifyPlayer s.players pid pid' _ (fun p => rfl)

theorem movePlayerToBank_eq (s : GameState) (pid : String) (t : GemType)
    (n : Int) : movePlayerToBank s pid t n = moveBankToPlayer s pid t (-n) := by
  unfold movePlayerToBank moveBankToPlayer
  rw [neg_neg]

theorem stateTotal_foldMoveBank (gs : List GemColor) (s : GameState)
    (pid : String) (t' : GemType) (h : (getPlayerById s pid).isSome = true) :
    stateTotal (gs.foldl (fun st g => moveBankToPlayer st pid (.color g) 1) s) t' =
        stateTotal s t' ∧
      (getPlayerById
        (gs.foldl (fun st g => moveBankToPlayer st pid (.color g) 1) s) pid).isSome =
        true := by
  induction gs generalizing s with
  | nil => exact ⟨rfl, h⟩
  | cons g rest ih =>
    rw [List.foldl_cons]
    have h1 := getPlayerById_isSome_moveBankToPlayer s pid pid (.color g) 1
    rw [h] at h1
    obtain ⟨ha, hb⟩ := ih (moveBankToPlayer s pid (.color g) 1) h1
    exact ⟨by rw [ha, stateTotal_moveBankToPlayer s pid _ 1 t' h], hb⟩

theorem stateTotal_foldPay (cs : List GemColor) (payment : Payment)
    (s : GameState) (pid : String) (t' : GemType)
    (h : (getPlayerById s pid).isSome = true) :
    stateTotal
        (cs.foldl (fun st c => movePlayerToBank st pid (.color c) (payment.gems.get c)) s) t' =
        stateTotal s t' ∧
      (getPlayerById
        (cs.foldl (fun st c => movePlayerToBank st pid (.color c) (payment.gems.get c)) s)
        pid).isSome = true := by
  induction cs generalizing s with
  | nil => exact ⟨rfl, h⟩
  | cons c rest ih =>
    rw [List.foldl_cons, movePlayerToBank_eq]
    have h1 := getPlayerById_isSome_moveBankToPlayer s pid pid (.color c)
      (-(payment.gems.get c))
    rw [h] at h1
    obtain ⟨ha, hb⟩ := ih (moveBankToPlayer s pid (.color c) (-(payment.gems.get c))) h1
    exact ⟨by rw [ha, stateTotal_moveBankToPlayer s pid _ _ t' h], hb⟩

theorem stateTotal_foldDiscard (es : List (GemType × Int)) (s : GameState)
    (pid : String) (t' : GemType) (h : (getPlayerById s pid).isSome = true) :
    stateTotal (es.foldl (fun st e => movePlayerToBank st pid e.1 e.2) s) t' =
        stateTotal s t' ∧
      (getPlayerById
        (es.foldl (fun st e => movePlayerToBank st pid e.1 e.2) s) pid).isSome =
        true := by
  induction es generalizing s with
  | nil => exact ⟨rfl, h⟩
  | cons e rest ih =>
    rw [List.foldl_cons, movePlayerToBank_eq]
    have h1 := getPlayerById_isSome_moveBankToPlayer s pid pid e.1 (-e.2)
    rw [h] at h1
    obtain ⟨ha, hb⟩ := ih (moveBankToPlayer s pid e.1 (-e.2)) h1
    exact ⟨by rw [ha, stateTotal_moveBankToPlayer s pid _ _ t' h], hb⟩

theorem stateTotal_updatePlayer (s : GameState) (pid : String)
    (f : Player → Player) (t : GemType)
    (hg : ∀ p, (f p).gems.get t = p.gems.get t) :
    stateTotal (updatePlayer s pid f) t = stateTotal s t := by
  unfold stateTotal updatePlayer
  have := sumPlayersGems_modifyPlayer s.players pid f t 0
    (fun p => by rw [hg p]; ring)
  simp only [this]
  split <;> ring

theorem getPlayerById_isSome_updatePlayer (s : GameState) (pid pid' : String)
    (f : Player → Player) (hid : ∀ p, (f p).id = p.id) :
    (getPlayerById (updatePlayer s pid f) pid').isSome =
      (getPlayerById s pid').isSome := by
  unfold getPlayerById updatePlayer
  exact find?_isSome_modifyPlayer s.players pid pid' f hid

theorem players_checkGameEnd (s : GameState) : (checkGameEnd s).players = s.players := by
  unfold checkGameEnd
  split <;> rfl

theorem bank_checkGameEnd (s : GameState) : (checkGameEnd s).bank = s.bank := by
  unfold checkGameEnd
  split <;> rfl

theorem players_checkGameEndTrigger (s : GameState) :
    (checkGameEndTrigger s).players = s.players := by
  unfold checkGameEndTrigger
  split
  · rfl
  · split <;> rfl

theorem bank_checkGameEndTrigger (s : GameState) :
    (checkGameEndTrigger s).bank = s.bank := by
  unfold checkGameEndTrigger
  split
  · rfl
  · split <;> rfl

theorem players_advanceTurn (s : GameState) : (advanceTurn s).players = s.players := by
  unfold advanceTurn
  split
  · rfl
  · dsimp only
    split
    · split
      · rw [players_checkGameEnd]
      · rfl
    · rfl

theorem bank_advanceTurn (s : GameState) : (advanceTurn s).bank = s.bank := by
  unfold advanceTurn
  split
  · rfl
  · dsimp only
    split
    · split
      · rw [bank_checkGameEnd]
      · rfl
    · rfl

theorem players_checkGameEndAndAdvance (s : GameState) :
    (checkGameEndAndAdvance s).players = s.players := by
  unfold checkGameEndAndAdvance
  rw [players_advanceTurn, players_checkGameEndTrigger]

theorem bank_checkGameEndAndAdvance (s : GameState) :
    (checkGameEndAndAdvance s).bank = s.bank := by
  unfold checkGameEndAndAdvance
  rw [bank_advanceTurn, bank_checkGameEndTrigger]

theorem stateTotal_checkGameEndAndAdvance (s : GameState) (t : GemType) :
    stateTotal (checkGameEndAndAdvance s) t = stateTotal s t :=
  stateTotal_congr s _ t (bank_checkGameEndAndAdvance s) (players_checkGameEndAndAdvance s)

theorem stateTotal_checkNobleAndAdvance (s : GameState) (pid : String) (t : GemType) :
    stateTotal (checkNobleAndAdvance s pid) t = stateTotal s t := by
  unfold checkNobleAndAdvance
  split
  · split
    · rename_i xl nid hnid xn noble hnoble
      rw [stateTotal_checkGameEndAndAdvance]
      have h1 : stateTotal
          { updatePlayer s pid (fun p =>
              { p with
                nobles := p.nobles ++ [noble],
                prestigePoints := p.prestigePoints + noble.prestigePoints }) with
            nobles := s.nobles.eraseP (fun n => n.id == nid) } t =
          stateTotal (updatePlayer s pid (fun p =>
              { p with
                nobles := p.nobles ++ [noble],
                prestigePoints := p.prestigePoints + noble.prestigePoints })) t :=
        stateTotal_congr _ _ t rfl rfl
      rw [h1, stateTotal_updatePlayer]
      intro p
      rfl
    · exact stateTotal_checkGameEndAndAdvance s t
  · exact stateTotal_checkGameEndAndAdvance s t
  · exact stateTotal_congr s _ t rfl rfl

theorem getTotalGems_congr_players (s s' : GameState) (h : s'.players = s.players)
    (pid : String) : getTotalGems s' pid = getTotalGems s pid := by
  unfold getTotalGems getPlayerById
  rw [h]

theorem getTotalGems_updatePlayer (s : GameState) (pid pid' : String)
    (f : Player → Player) (hid : ∀ p, (f p).id = p.id)
    (hg : ∀ p, (f p).gems = p.gems) :
    getTotalGems (updatePlayer s pid f) pid' = getTotalGems s pid' := by
  unfold getTotalGems getPlayerById updatePlayer
  have h := find?_map_modifyPlayer s.players pid pid' f (fun p => p.gems.total) hid
    (fun p => by show (f p).gems.total = p.gems.total; rw [hg p])
  cases h1 : (modifyPlayer s.players pid f).find? (fun p => p.id == pid') <;>
    cases h2 : s.players.find? (fun p => p.id == pid') <;>
      rw [h1, h2] at h <;> simp_all

theorem getTotalGems_checkNobleAndAdvance (s : GameState) (pid pid' : String) :
    getTotalGems (checkNobleAndAdvance s pid) pid' = getTotalGems s pid' := by
  unfold checkNobleAndAdvance
  split
  · split
    · rename_i xl nid hnid xn noble hnoble
      rw [getTotalGems_congr_players _ _ (players_checkGameEndAndAdvance _) pid']
      have h1 : getTotalGems
          { updatePlayer s pid (fun p =>
              { p with
                nobles := p.nobles ++ [noble],
                prestigePoints := p.prestigePoints + noble.prestigePoints }) with
            nobles := s.nobles.eraseP (fun n => n.id == nid) } pid' =
          getTotalGems (updatePlayer s pid (fun p =>
              { p with
                nobles := p.nobles ++ [noble],
                prestigePoints := p.prestigePoints + noble.prestigePoints })) pid' :=
        getTotalGems_congr_players _ _ rfl pid'
      rw [h1, getTotalGems_updatePlayer]
      · intro p
        rfl
      · intro p
        rfl
    · exact getTotalGems_congr_players _ _ (players_checkGameEndAndAdvance _) pid'
  · exact getTotalGems_congr_players _ _ (players_checkGameEndAndAdvance _) pid'
  · exact getTotalGems_congr_players _ _ rfl pid'

theorem finishTurn_player_isSome (s : GameState) (pid : String) (s' : GameState)
    (h : finishTurn s pid = some s') : (getPlayerById s pid).isSome = true := by
  unfold finishTurn at h
  cases hp : getPlayerById s pid with
  | none => rw [hp] at h; exact absurd h (by simp)
  | some p => rfl

theorem stateTotal_finishTurn (s : GameState) (pid : String) (s' : GameState)
    (t : GemType) (h : finishTurn s pid = some s') :
    stateTotal s' t = stateTotal s t := by
  unfold finishTurn at h
  cases hp : getPlayerById s pid with
  | none => rw [hp] at h; exact absurd h (by simp)
  | some p =>
    rw [hp] at h
    dsimp only at h
    split at h
    · cases h
      exact stateTotal_congr s _ t rfl rfl
    · cases h
      exact stateTotal_checkNobleAndAdvance s pid t

theorem getPlayerById_congr_players (s s' : GameState) (h : s'.players = s.players)
    (pid : String) : getPlayerById s' pid = getPlayerById s pid := by
  unfold getPlayerById
  rw [h]

theorem players_reserveDraw (s : GameState) (cid : Option String) (tier : Tier) :
    (reserveDraw s cid tier).2.players = s.players := by
  unfold reserveDraw
  cases cid with
  | some c =>
    dsimp only
    split <;> rfl
  | none =>
    dsimp only
    split <;> rfl

theorem bank_reserveDraw (s : GameState) (cid : Option String) (tier : Tier) :
    (reserveDraw s cid tier).2.bank = s.bank := by
  unfold reserveDraw
  cases cid with
  | some c =>
    dsimp only
    split <;> rfl
  | none =>
    dsimp only
    split <;> rfl

theorem total_applyTakeThreeGems (s : GameState) (pid : String)
    (gems : List GemColor) (s' : GameState) (t : GemType)
    (h : applyTakeThreeGems s pid gems = some s') :
    stateTotal s' t = stateTotal s t := by
  unfold applyTakeThreeGems at h
  cases hp : getPlayerById s pid with
  | none => rw [hp] at h; exact absurd h (by simp)
  | some p =>
    rw [hp] at h
    dsimp only at h
    have hsome : (getPlayerById s pid).isSome = true := by rw [hp]; rfl
    obtain ⟨ht, _⟩ := stateTotal_foldMoveBank gems s pid t hsome
    rw [stateTotal_finishTurn _ pid s' t h, ht]

theorem total_applyTakeTwoGems (s : GameState) (pid : String) (gem : GemColor)
    (s' : GameState) (t : GemType) (h : applyTakeTwoGems s pid gem = some s') :
    stateTotal s' t = stateTotal s t := by
  unfold applyTakeTwoGems at h
  cases hp : getPlayerById s pid with
  | none => rw [hp] at h; exact absurd h (by simp)
  | some p =>
    rw [hp] at h
    dsimp only at h
    have hsome : (getPlayerById s pid).isSome = true := by rw [hp]; rfl
    rw [stateTotal_finishTurn _ pid s' t h,
      stateTotal_moveBankToPlayer s pid _ 2 t hsome]

theorem total_applyReserveCard (s : GameState) (pid : String)
    (cardId : Option String) (tier : Tier) (s' : GameState) (t : GemType)
    (h : applyReserveCard s pid cardId tier = some s') :
    stateTotal s' t = stateTotal s t := by
  unfold applyReserveCard at h
  cases hp : getPlayerById s pid with
  | none => rw [hp] at h; exact absurd h (by simp)
  | some p =>
    rw [hp] at h
    dsimp only at h
    have hsome : (getPlayerById s pid).isSome = true := by rw [hp]; rfl
    have hpl := players_reserveDraw s cardId tier
    have hbk := bank_reserveDraw s cardId tier
    have ht1 : stateTotal (reserveDraw s cardId tier).2 t = stateTotal s t :=
      stateTotal_congr _ _ t hbk hpl
    have hp1 : (getPlayerById (reserveDraw s cardId tier).2 pid).isSome = true := by
      rw [getPlayerById_congr_players _ _ hpl]
      exact hsome
    cases hdr : (reserveDraw s cardId tier).1 with
    | some c =>
      rw [hdr] at h
      dsimp only at h
      have ht2 : stateTotal (updatePlayer (reserveDraw s cardId tier).2 pid
          (fun q => { q with reservedCards := q.reservedCards ++ [c] })) t =
          stateTotal s t :=
        (stateTotal_updatePlayer (reserveDraw s cardId tier).2 pid
          (fun q => { q with reservedCards := q.reservedCards ++ [c] }) t
          (fun q => rfl)).trans ht1
      have hp2 : (getPlayerById (updatePlayer (reserveDraw s cardId tier).2 pid
          (fun q => { q with reservedCards := q.reservedCards ++ [c] })) pid).isSome =
          true :=
        (getPlayerById_isSome_updatePlayer (reserveDraw s cardId tier).2 pid pid
          (fun q => { q with reservedCards := q.reservedCards ++ [c] })
          (fun q => rfl)).trans hp1
      split at h
      · rw [stateTotal_finishTurn _ pid s' t h,
          stateTotal_moveBankToPlayer _ pid _ 1 t hp2, ht2]
      · rw [stateTotal_finishTurn _ pid s' t h, ht2]
    | none =>
      rw [hdr] at h
      dsimp only at h
      split at h
      · rw [stateTotal_finishTurn _ pid s' t h,
          stateTotal_moveBankToPlayer _ pid _ 1 t hp1, ht1]
      · rw [stateTotal_finishTurn _ pid s' t h, ht1]

theorem total_purchaseTail (s1 : GameState) (pid : String) (payment : Payment)
    (card : DevelopmentCard) (fr : Bool) (s' : GameState) (t : GemType)
    (hp1 : (getPlayerById s1 pid).isSome = true)
    (h : finishTurn
      (let s4 := updatePlayer
          (movePlayerToBank
            (gemColors.foldl
              (fun st c => movePlayerToBank st pid (.color c) (payment.gems.get c)) s1)
            pid .gold payment.gold)
          pid (fun p =>
            { p with
              purchasedCards := p.purchasedCards ++ [card]
              bonuses := p.bonuses.add card.bonus 1
              prestigePoints := p.prestigePoints + card.prestigePoints });
        if fr then s4
        else
          let fm := refillMarketSlot s4.decks s4.market card.tier
          { s4 with market := fm.2, decks := fm.1 }) pid = some s') :
    stateTotal s' t = stateTotal s1 t := by
  obtain ⟨ht2, hp2⟩ := stateTotal_foldPay gemColors payment s1 pid t hp1
  have hp3 : (getPlayerById (movePlayerToBank
      (gemColors.foldl
        (fun st c => movePlayerToBank st pid (.color c) (payment.gems.get c)) s1)
      pid .gold payment.gold) pid).isSome = true := by
    rw [movePlayerToBank_eq, getPlayerById_isSome_moveBankToPlayer]
    exact hp2
  have ht3 : stateTotal (movePlayerToBank
      (gemColors.foldl
        (fun st c => movePlayerToBank st pid (.color c) (payment.gems.get c)) s1)
      pid .gold payment.gold) t = stateTotal s1 t := by
    rw [movePlayerToBank_eq, stateTotal_moveBankToPlayer _ _ _ _ t hp2, ht2]
  have ht4 : stateTotal (updatePlayer
      (movePlayerToBank
        (gemColors.foldl
          (fun st c => movePlayerToBank st pid (.color c) (payment.gems.get c)) s1)
        pid .gold payment.gold)
      pid (fun p =>
        { p with
          purchasedCards := p.purchasedCards ++ [card]
          bonuses := p.bonuses.add card.bonus 1
          prestigePoints := p.prestigePoints + card.prestigePoints })) t =
      stateTotal s1 t :=
    (stateTotal_updatePlayer
      (movePlayerToBank
        (gemColors.foldl
          (fun st c => movePlayerToBank st pid (.color c) (payment.gems.get c)) s1)
        pid .gold payment.gold)
      pid (fun p =>
        { p with
          purchasedCards := p.purchasedCards ++ [card]
          bonuses := p.bonuses.add card.bonus 1
          prestigePoints := p.prestigePoints + card.prestigePoints }) t
      (fun q => rfl)).trans ht3
  dsimp only at h
  split at h
  · rw [stateTotal_finishTurn _ pid s' t h]
    exact ht4
  · rw [stateTotal_finishTurn _ pid s' t h]
    exact ht4

theorem total_applyPurchaseCard (s : GameState) (pid cid : String)
    (s' : GameState) (t : GemType) (h : applyPurchaseCard s pid cid = some s') :
    stateTotal s' t = stateTotal s t := by
  unfold applyPurchaseCard at h
  cases hp : getPlayerById s pid with
  | none => rw [hp] at h; exact absurd h (by simp)
  | some player =>
    rw [hp] at h
    dsimp only at h
    cases hpay : calculatePayment s pid cid with
    | none => rw [hpay] at h; exact absurd h (by simp)
    | some payment =>
      rw [hpay] at h
      dsimp only at h
      have hsome : (getPlayerById s pid).isSome = true := by rw [hp]; rfl
      cases hrm : (removeCardFromMarket s.market cid).1 with
      | some c =>
        rw [hrm] at h
        dsimp only at h
        exact total_purchaseTail { s with market := (removeCardFromMarket s.market cid).2 }
          pid payment c false s' t hsome h
      | none =>
        rw [hrm] at h
        dsimp only at h
        cases hf : player.reservedCards.find? (fun q => q.id == cid) with
        | none => rw [hf] at h; exact absurd h (by simp)
        | some c =>
          rw [hf] at h
          dsimp only at h
          have hp1 : (getPlayerById (updatePlayer s pid
              (fun q => { q with
                reservedCards := q.reservedCards.eraseP (fun r => r.id == cid) }))
              pid).isSome = true :=
            (getPlayerById_isSome_updatePlayer s pid pid
              (fun q => { q with
                reservedCards := q.reservedCards.eraseP (fun r => r.id == cid) })
              (fun q => rfl)).trans hsome
          have ht1 : stateTotal (updatePlayer s pid
              (fun q => { q with
                reservedCards := q.reservedCards.eraseP (fun r => r.id == cid) })) t =
              stateTotal s t :=
            stateTotal_updatePlayer s pid
              (fun q => { q with
                reservedCards := q.reservedCards.eraseP (fun r => r.id == cid) }) t
              (fun q => rfl)
          exact (total_purchaseTail (updatePlayer s pid
            (fun q => { q with
              reservedCards := q.reservedCards.eraseP (fun r => r.id == cid) }))
            pid payment c true s' t hp1 h).trans ht1

theorem total_applySelectNoble (s : GameState) (pid nid : String)
    (s' : GameState) (t : GemType) (h : applySelectNoble s pid nid = some s') :
    stateTotal s' t = stateTotal s t := by
  unfold applySelectNoble at h
  cases hn : s.nobles.find? (fun n => n.id == nid) with
  | none => rw [hn] at h; exact absurd h (by simp)
  | some noble =>
    rw [hn] at h
    dsimp only at h
    cases hp : getPlayerById s pid with
    | none => rw [hp] at h; exact absurd h (by simp)
    | some p =>
      rw [hp] at h
      dsimp only at h
      cases h
      rw [stateTotal_checkGameEndAndAdvance]
      exact stateTotal_updatePlayer s pid (fun q =>
        { q with
          nobles := q.nobles ++ [noble]
          prestigePoints := q.prestigePoints + noble.prestigePoints }) t
        (fun q => rfl)

theorem total_applyDiscardGems (s : GameState) (pid : String) (gems : OptGems)
    (s' : GameState) (t : GemType) (h : applyDiscardGems s pid gems = some s') :
    stateTotal s' t = stateTotal s t := by
  unfold applyDiscardGems at h
  dsimp only at h
  split at h
  · exact absurd h (by simp)
  · rename_i hcond
    cases h
    rw [stateTotal_checkNobleAndAdvance]
    cases hq : gems.entries.filter (fun e => e.2 > 0) with
    | nil => rfl
    | cons e rest =>
      have hsome : (getPlayerById s pid).isSome = true := by
        rw [hq] at hcond
        cases hopt : (getPlayerById s pid).isNone
        · cases hg2 : getPlayerById s pid
          · rw [hg2] at hopt; exact absurd hopt (by simp)
          · rfl
        · exact absurd (by simp [hopt] : ((e :: rest).length ≠ 0 &&
            (getPlayerById s pid).isNone) = true) hcond
      exact (stateTotal_foldDiscard (e :: rest) s pid t hsome).1


/-- Claim C1 requires conservation through `applyAction`; the per-handler
lemmas are combined here over `applyActionUnsafe`. -/
theorem total_applyActionUnsafe (s : GameState) (a : PlayerAction)
    (s' : GameState) (t : GemType) (h : applyActionUnsafe s a = some s') :
    stateTotal s' t = stateTotal s t := by
  cases a with
  | takeThreeGems pid gems => exact total_applyTakeThreeGems s pid gems s' t h
  | takeTwoGems pid gem => exact total_applyTakeTwoGems s pid gem s' t h
  | reserveCard pid cid tier => exact total_applyReserveCard s pid cid tier s' t h
  | purchaseCard pid cid => exact total_applyPurchaseCard s pid cid s' t h
  | selectNoble pid nid => exact total_applySelectNoble s pid nid s' t h
  | discardGems pid gems => exact total_applyDiscardGems s pid gems s' t h

/-- C1: for every state and every action that `validateAction` accepts (so
`applyAction` returns a successor state rather than throwing), the returned
state preserves, for each of the six gem types including gold, the sum of the
bank's count plus all players' held counts; every decrement on one side of a
transfer is matched by an increment on the other side within the transition. -/
theorem C1_token_conservation (s : GameState) (a : PlayerAction) (s' : GameState)
    (h : applyAction s a = some s') (t : GemType) :
    stateTotal s' t = stateTotal s t := by
  unfold applyAction at h
  cases hv : validateAction s a with
  | none => rw [hv] at h; exact absurd h (by simp)
  | some v =>
    rw [hv] at h
    dsimp only at h
    split at h
    · exact total_applyActionUnsafe s a s' t h
    · exact absurd h (by simp)

/-- A development card sitting in the test market. -/
def wCardA : DevelopmentCard := ⟨"c1", .one, ⟨1, 0, 0, 0, 0⟩, .diamond, 0⟩

/-- A development card in the test deck. -/
def wCardB : DevelopmentCard := ⟨"c2", .one, ⟨0, 1, 0, 0, 0⟩, .sapphire, 0⟩

/-- A development card reserved by the first test player. -/
def wCardR : DevelopmentCard := ⟨"r1", .one, ⟨0, 2, 0, 0, 0⟩, .emerald, 1⟩

/-- A noble available in the test state. -/
def wNoble1 : Noble := ⟨"n1", ⟨3, 0, 0, 0, 0⟩, 3⟩

/-- First test player (the current player of `wState`). -/
def wPlayer1 : Player :=
  ⟨"p1", "Alice", ⟨2, 1, 0, 0, 0, 1⟩, ⟨1, 0, 0, 0, 0⟩, [wCardR], [], [], 0⟩

/-- Second test player. -/
def wPlayer2 : Player :=
  ⟨"p2", "Bob", ⟨0, 0, 0, 0, 0, 0⟩, ⟨0, 0, 0, 0, 0⟩, [], [], [], 0⟩

/-- A small concrete two-player mid-game state used to instantiate the
theorems with hypotheses at concrete inputs. -/
def wState : GameState :=
  ⟨"g", .playing, [wPlayer1, wPlayer2], 0, ⟨4, 4, 4, 4, 4, 5⟩,
    ⟨[some wCardA], [], []⟩, ⟨[wCardB], [], []⟩, [wNoble1], 1, none, [], none, none⟩

/-- Witness for C1 at a concrete state and accepted action. -/
theorem C1_token_conservation_witness :
    ∃ s', applyAction wState (.takeTwoGems "p1" .emerald) = some s' ∧
      ∀ t, stateTotal s' t = stateTotal wState t := by
  have h : (applyAction wState (.takeTwoGems "p1" .emerald)).isSome = true := by decide
  obtain ⟨s', hs⟩ := Option.isSome_iff_exists.mp h
  exact ⟨s', hs, fun t => C1_token_conservation wState _ s' hs t⟩

theorem posPart_eq_max (x : Int) : posPart x = max 0 x := by
  unfold posPart
  split <;> omega

theorem posPart_nonneg (x : Int) : 0 ≤ posPart x := by
  unfold posPart
  split <;> omega

/-- C3: for every state, every player found in it, and every card found in the
market or in that player's reserved list, `canAffordCard` returns true exactly
when the player's gold is at least the sum over the five colors of
`max(0, max(0, cost − bonus) − gems)`: bonuses are subtracted from the cost
before gems or gold are considered. -/
theorem C3_canAfford_iff_gold_covers_shortfall (s : GameState) (pid cid : String)
    (p : Player) (card : DevelopmentCard)
    (hp : getPlayerById s pid = some p)
    (hc : (findCardInMarket s cid).orElse
        (fun _ => p.reservedCards.find? (fun c => c.id == cid)) = some card) :
    canAffordCard s pid cid = true ↔
      p.gems.gold ≥
        max 0 (max 0 (card.cost.emerald - p.bonuses.emerald) - p.gems.emerald) +
        max 0 (max 0 (card.cost.diamond - p.bonuses.diamond) - p.gems.diamond) +
        max 0 (max 0 (card.cost.sapphire - p.bonuses.sapphire) - p.gems.sapphire) +
        max 0 (max 0 (card.cost.onyx - p.bonuses.onyx) - p.gems.onyx) +
        max 0 (max 0 (card.cost.ruby - p.bonuses.ruby) - p.gems.ruby) := by
  unfold canAffordCard calculateEffectiveCost
  rw [hp]
  dsimp only
  rw [hc]
  dsimp only
  simp only [posPart_eq_max, decide_eq_true_eq]

/-- Witness for C3 at a concrete state, player and market card. -/
theorem C3_witness :
    canAffordCard wState "p1" "c1" = true ↔
      wPlayer1.gems.gold ≥
        max 0 (max 0 (wCardA.cost.emerald - wPlayer1.bonuses.emerald) - wPlayer1.gems.emerald) +
        max 0 (max 0 (wCardA.cost.diamond - wPlayer1.bonuses.diamond) - wPlayer1.gems.diamond) +
        max 0 (max 0 (wCardA.cost.sapphire - wPlayer1.bonuses.sapphire) - wPlayer1.gems.sapphire) +
        max 0 (max 0 (wCardA.cost.onyx - wPlayer1.bonuses.onyx) - wPlayer1.gems.onyx) +
        max 0 (max 0 (wCardA.cost.ruby - wPlayer1.bonuses.ruby) - wPlayer1.gems.ruby) :=
  C3_canAfford_iff_gold_covers_shortfall wState "p1" "c1" wPlayer1 wCardA
    (by decide) (by decide)

/-- C4 counterexample: with a `playerId` that resolves to no player,
`canAffordCard` returns false while the entries of `getCardShortfall` sum to
0, refuting the equivalence as universally stated. -/
theorem C4_counterexample :
    canAffordCard wState "ghost" "c1" = false ∧
      (getCardShortfall wState "ghost" "c1").emerald +
        (getCardShortfall wState "ghost" "c1").diamond +
        (getCardShortfall wState "ghost" "c1").sapphire +
        (getCardShortfall wState "ghost" "c1").onyx +
        (getCardShortfall wState "ghost" "c1").ruby = 0 := by
  decide

theorem goldStep_eq (g sh : Int) (hg : 0 ≤ g) (hsh : 0 ≤ sh) :
    goldStep g sh = (g - min g sh, sh - min g sh) := by
  unfold goldStep
  split_ifs with h
  · rfl
  · simp only [Bool.and_eq_true, decide_eq_true_eq, not_and_or, not_lt] at h
    have hmin : min g sh = 0 := by
      rcases h with h | h <;> omega
    rw [hmin]
    simp

theorem goldStep_chain_zero_iff (g a b c d e : Int)
    (ha : 0 ≤ a) (hb : 0 ≤ b) (hc : 0 ≤ c) (hd : 0 ≤ d) (he : 0 ≤ e)
    (hg : 0 ≤ g) :
    (goldStep g a).2 + (goldStep (goldStep g a).1 b).2 +
        (goldStep (goldStep (goldStep g a).1 b).1 c).2 +
        (goldStep (goldStep (goldStep (goldStep g a).1 b).1 c).1 d).2 +
        (goldStep (goldStep (goldStep (goldStep (goldStep g a).1 b).1 c).1 d).1
          e).2 = 0 ↔
      g ≥ a + b + c + d + e := by
  rw [goldStep_eq g a hg ha]
  dsimp only
  rw [goldStep_eq (g - min g a) b (by omega) hb]
  dsimp only
  rw [goldStep_eq (g - min g a - min (g - min g a) b) c (by omega) hc]
  dsimp only
  rw [goldStep_eq (g - min g a - min (g - min g a) b -
    min (g - min g a - min (g - min g a) b) c) d (by omega) hd]
  dsimp only
  rw [goldStep_eq (g - min g a - min (g - min g a) b -
    min (g - min g a - min (g - min g a) b) c -
    min (g - min g a - min (g - min g a) b -
      min (g - min g a - min (g - min g a) b) c) d) e (by omega) he]
  dsimp only
  omega

/-- C4 (amended): for every state, player found in it, and card found in the
market or in that player's reserved list, and a non-negative gold count,
`canAffordCard` is true exactly when the five entries of `getCardShortfall`
sum to 0. -/
theorem C4_afford_iff_shortfall_zero (s : GameState) (pid cid : String)
    (p : Player) (card : DevelopmentCard)
    (hp : getPlayerById s pid = some p)
    (hc : (findCardInMarket s cid).orElse
        (fun _ => p.reservedCards.find? (fun c => c.id == cid)) = some card)
    (hg : 0 ≤ p.gems.gold) :
    canAffordCard s pid cid = true ↔
      (getCardShortfall s pid cid).emerald +
        (getCardShortfall s pid cid).diamond +
        (getCardShortfall s pid cid).sapphire +
        (getCardShortfall s pid cid).onyx +
        (getCardShortfall s pid cid).ruby = 0 := by
  unfold canAffordCard getCardShortfall calculateEffectiveCost
  rw [hp]
  dsimp only
  rw [hc]
  dsimp only
  rw [decide_eq_true_eq]
  exact (goldStep_chain_zero_iff p.gems.gold _ _ _ _ _
    (posPart_nonneg _) (posPart_nonneg _) (posPart_nonneg _) (posPart_nonneg _)
    (posPart_nonneg _) hg).symm

/-- Witness for the amended C4 at a concrete state, player and card. -/
theorem C4_witness :
    canAffordCard wState "p1" "c1" = true ↔
      (getCardShortfall wState "p1" "c1").emerald +
        (getCardShortfall wState "p1" "c1").diamond +
        (getCardShortfall wState "p1" "c1").sapphire +
        (getCardShortfall wState "p1" "c1").onyx +
        (getCardShortfall wState "p1" "c1").ruby = 0 :=
  C4_afford_iff_shortfall_zero wState "p1" "c1" wPlayer1 wCardA
    (by decide) (by decide) (by decide)

theorem foldl_max_spec (l : List Int) (x : Int) :
    x ≤ l.foldl max x ∧ (∀ y ∈ l, y ≤ l.foldl max x) ∧
      (l.foldl max x = x ∨ l.foldl max x ∈ l) := by
  induction l generalizing x with
  | nil => exact ⟨le_refl x, by simp, Or.inl rfl⟩
  | cons y ys ih =>
    simp only [List.foldl_cons]
    obtain ⟨h1, h2, h3⟩ := ih (max x y)
    refine ⟨le_trans (le_max_left x y) h1, ?_, ?_⟩
    · intro z hz
      rcases List.mem_cons.mp hz with rfl | hz'
      · exact le_trans (le_max_right x z) h1
      · exact h2 z hz'
    · rcases h3 with he | hm
      · rcases max_choice x y with hx | hy
        · exact Or.inl (by rw [he, hx])
        · exact Or.inr (List.mem_cons.mpr (Or.inl (by rw [he, hy])))
      · exact Or.inr (List.mem_cons.mpr (Or.inr hm))

theorem foldl_min_spec (l : List Int) (x : Int) :
    l.foldl min x ≤ x ∧ (∀ y ∈ l, l.foldl min x ≤ y) ∧
      (l.foldl min x = x ∨ l.foldl min x ∈ l) := by
  induction l generalizing x with
  | nil => exact ⟨le_refl x, by simp, Or.inl rfl⟩
  | cons y ys ih =>
    simp only [List.foldl_cons]
    obtain ⟨h1, h2, h3⟩ := ih (min x y)
    refine ⟨le_trans h1 (min_le_left x y), ?_, ?_⟩
    · intro z hz
      rcases List.mem_cons.mp hz with rfl | hz'
      · exact le_trans h1 (min_le_right x z)
      · exact h2 z hz'
    · rcases h3 with he | hm
      · rcases min_choice x y with hx | hy
        · exact Or.inl (by rw [he, hx])
        · exact Or.inr (List.mem_cons.mpr (Or.inl (by rw [he, hy])))
      · exact Or.inr (List.mem_cons.mpr (Or.inr hm))

/-- C8: for every state with a non-empty player list, `determineWinners`
returns exactly the ids of the players with maximum `prestigePoints` and,
among those, the minimum number of `purchasedCards`; all players still tied
after both criteria appear as co-winners. -/
theorem C8_determineWinners_characterization (s : GameState)
    (h : s.players ≠ []) (pid : String) :
    pid ∈ determineWinners s ↔
      ∃ p, p ∈ s.players ∧ p.id = pid ∧
        (∀ q ∈ s.players, q.prestigePoints ≤ p.prestigePoints) ∧
        (∀ q ∈ s.players, q.prestigePoints = p.prestigePoints →
          p.purchasedCards.length ≤ q.purchasedCards.length) := by
  unfold determineWinners
  cases hps : s.players with
  | nil => exact absurd hps h
  | cons p0 rest =>
    dsimp only
    have hfold : rest.foldl (fun acc p => max acc p.prestigePoints) p0.prestigePoints
        = (rest.map (fun p => p.prestigePoints)).foldl max p0.prestigePoints := by
      rw [List.foldl_map]
    have hub : ∀ q ∈ p0 :: rest, q.prestigePoints ≤
        rest.foldl (fun acc p => max acc p.prestigePoints) p0.prestigePoints := by
      intro q hq
      rw [hfold]
      rcases List.mem_cons.mp hq with rfl | hq'
      · exact (foldl_max_spec _ _).1
      · exact (foldl_max_spec _ _).2.1 _ (List.mem_map.mpr ⟨q, hq', rfl⟩)
    have hex : ∃ p, p ∈ p0 :: rest ∧ p.prestigePoints =
        rest.foldl (fun acc p => max acc p.prestigePoints) p0.prestigePoints := by
      rw [hfold]
      rcases (foldl_max_spec (rest.map (fun p => p.prestigePoints))
          p0.prestigePoints).2.2 with he | hm
      · exact ⟨p0, List.mem_cons_self _ _, he.symm⟩
      · obtain ⟨q, hq, hqe⟩ := List.mem_map.mp hm
        exact ⟨q, List.mem_cons_of_mem _ hq, hqe⟩
    have hmaxiff : ∀ p ∈ p0 :: rest,
        ((∀ q ∈ p0 :: rest, q.prestigePoints ≤ p.prestigePoints) ↔
          p.prestigePoints =
            rest.foldl (fun acc p => max acc p.prestigePoints) p0.prestigePoints) := by
      intro p hp
      constructor
      · intro hall
        obtain ⟨w, hw, hwe⟩ := hex
        have h1 := hub p hp
        have h2 := hall w hw
        omega
      · intro he q hq
        rw [he]
        exact hub q hq
    cases hC : (p0 :: rest).filter (fun p => p.prestigePoints ==
        rest.foldl (fun acc p => max acc p.prestigePoints) p0.prestigePoints) with
    | nil =>
      exfalso
      obtain ⟨w, hw, hwe⟩ := hex
      have hwC : w ∈ (p0 :: rest).filter (fun p => p.prestigePoints ==
          rest.foldl (fun acc p => max acc p.prestigePoints) p0.prestigePoints) :=
        List.mem_filter.mpr ⟨hw, by rw [beq_iff_eq]; exact hwe⟩
      rw [hC] at hwC
      exact absurd hwC (List.not_mem_nil w)
    | cons c0 cs =>
      have hCm : ∀ p, p ∈ c0 :: cs ↔ p ∈ p0 :: rest ∧ p.prestigePoints =
          rest.foldl (fun acc p => max acc p.prestigePoints) p0.prestigePoints := by
        intro p
        rw [← hC, List.mem_filter, beq_iff_eq]
      cases cs with
      | nil =>
        dsimp only
        constructor
        · intro hin
          have hpid : pid = c0.id := List.mem_singleton.mp hin
          obtain ⟨hc0mem, hc0M⟩ := (hCm c0).mp (List.mem_singleton.mpr rfl)
          refine ⟨c0, hc0mem, hpid.symm, (hmaxiff c0 hc0mem).mpr hc0M, ?_⟩
          intro q hq hqe
          have hqC : q ∈ [c0] := (hCm q).mpr ⟨hq, by rw [hqe, hc0M]⟩
          rw [List.mem_singleton.mp hqC]
        · rintro ⟨p, hp, hpid, hmax, hmin⟩
          have hpM := (hmaxiff p hp).mp hmax
          have hpC : p ∈ [c0] := (hCm p).mpr ⟨hp, hpM⟩
          have hpc0 : p = c0 := List.mem_singleton.mp hpC
          rw [← hpid, hpc0]
          exact List.mem_singleton.mpr rfl
      | cons c1 cs' =>
        dsimp only
        have hfmin : (c1 :: cs').foldl
            (fun acc p => min acc (p.purchasedCards.length : Int))
            (c0.purchasedCards.length : Int) =
            ((c1 :: cs').map (fun p => (p.purchasedCards.length : Int))).foldl min
              (c0.purchasedCards.length : Int) := by
          rw [List.foldl_map]
        have hminlb : ∀ q ∈ c0 :: c1 :: cs',
            (c1 :: cs').foldl (fun acc p => min acc (p.purchasedCards.length : Int))
              (c0.purchasedCards.length : Int) ≤ (q.purchasedCards.length : Int) := by
          intro q hq
          rw [hfmin]
          rcases List.mem_cons.mp hq with rfl | hq'
          · exact (foldl_min_spec _ _).1
          · exact (foldl_min_spec _ _).2.1 _ (List.mem_map.mpr ⟨q, hq', rfl⟩)
        have hminex : ∃ q, q ∈ c0 :: c1 :: cs' ∧ (q.purchasedCards.length : Int) =
            (c1 :: cs').foldl (fun acc p => min acc (p.purchasedCards.length : Int))
              (c0.purchasedCards.length : Int) := by
          rw [hfmin]
          rcases (foldl_min_spec ((c1 :: cs').map
              (fun p => (p.purchasedCards.length : Int)))
              (c0.purchasedCards.length : Int)).2.2 with he | hm
          · exact ⟨c0, List.mem_cons_self _ _, he.symm⟩
          · obtain ⟨q, hq, hqe⟩ := List.mem_map.mp hm
            exact ⟨q, List.mem_cons_of_mem _ hq, hqe⟩
        constructor
        · intro hin
          obtain ⟨p, hpF, hpid⟩ := List.mem_map.mp hin
          obtain ⟨hpC, hpmineq⟩ := List.mem_filter.mp hpF
          rw [beq_iff_eq] at hpmineq
          obtain ⟨hpmem, hpM⟩ := (hCm p).mp hpC
          refine ⟨p, hpmem, hpid, (hmaxiff p hpmem).mpr hpM, ?_⟩
          intro q hq hqe
          have hqC : q ∈ c0 :: c1 :: cs' := (hCm q).mpr ⟨hq, by rw [hqe, hpM]⟩
          have hlb := hminlb q hqC
          omega
        · rintro ⟨p, hp, hpid, hmax, hmin⟩
          have hpM := (hmaxiff p hp).mp hmax
          have hpC : p ∈ c0 :: c1 :: cs' := (hCm p).mpr ⟨hp, hpM⟩
          obtain ⟨w, hwC, hwe⟩ := hminex
          obtain ⟨hwmem, hwM⟩ := (hCm w).mp hwC
          have h1 : p.purchasedCards.length ≤ w.purchasedCards.length :=
            hmin w hwmem (by rw [hwM, hpM])
          have h2 := hminlb p hpC
          have hlen : (p.purchasedCards.length : Int) =
              (c1 :: cs').foldl (fun acc p => min acc (p.purchasedCards.length : Int))
                (c0.purchasedCards.length : Int) := by
            omega
          exact List.mem_map.mpr ⟨p, List.mem_filter.mpr
            ⟨hpC, by rw [beq_iff_eq]; exact hlen⟩, hpid⟩

/-- Witness for C8 at a concrete two-player state. -/
theorem C8_witness :
    "p1" ∈ determineWinners wState ↔
      ∃ p, p ∈ wState.players ∧ p.id = "p1" ∧
        (∀ q ∈ wState.players, q.prestigePoints ≤ p.prestigePoints) ∧
        (∀ q ∈ wState.players, q.prestigePoints = p.prestigePoints →
          p.purchasedCards.length ≤ q.purchasedCards.length) :=
  C8_determineWinners_characterization wState (by decide) "p1"

/-- C9: `createGame` throws exactly when the player list length differs from
`config.playerCount`; otherwise, for every player count, the returned state's
bank holds 4/5/7 of each colored gem (for 2/3/4 players) plus exactly 5 gold,
with phase `playing`, round 1, `currentPlayerIndex` 0, and neither
`pendingGemDiscard` nor `pendingNobleSelection` set. -/
theorem C9_createGame_contract (config : GameConfig)
    (infos : List (String × String)) (rand : Nat → Nat) :
    (createGame config infos rand = none ↔
        infos.length ≠ config.playerCount.toNat) ∧
      ∀ gs, createGame config infos rand = some gs →
        gs.bank = (match config.playerCount with
          | .two => ⟨4, 4, 4, 4, 4, 5⟩
          | .three => ⟨5, 5, 5, 5, 5, 5⟩
          | .four => ⟨7, 7, 7, 7, 7, 5⟩) ∧
        gs.phase = .playing ∧ gs.round = 1 ∧ gs.currentPlayerIndex = 0 ∧
        gs.pendingGemDiscard = none ∧ gs.pendingNobleSelection = none := by
  unfold createGame
  by_cases hlen : infos.length ≠ config.playerCount.toNat
  · rw [if_pos hlen]
    exact ⟨⟨fun _ => hlen, fun _ => rfl⟩, fun gs hgs => absurd hgs (by simp)⟩
  · rw [if_neg hlen]
    dsimp only
    refine ⟨⟨fun hc => absurd hc (by simp), fun hne => absurd hne hlen⟩, ?_⟩
    intro gs hgs
    cases hgs
    refine ⟨?_, rfl, rfl, rfl, rfl, rfl⟩
    cases hpc : config.playerCount <;> rfl

/-- Witness for C9: a concrete two-player creation. -/
theorem C9_witness :
    ∃ gs, createGame ⟨.two⟩ [("p1", "Alice"), ("p2", "Bob")] (fun _ => 0) =
        some gs ∧
      gs.bank = ⟨4, 4, 4, 4, 4, 5⟩ ∧ gs.phase = .playing ∧ gs.round = 1 ∧
      gs.currentPlayerIndex = 0 ∧ gs.pendingGemDiscard = none ∧
      gs.pendingNobleSelection = none := by
  have h : (createGame ⟨.two⟩ [("p1", "Alice"), ("p2", "Bob")]
      (fun _ => 0)).isSome = true := by decide
  obtain ⟨gs, hgs⟩ := Option.isSome_iff_exists.mp h
  obtain ⟨hb, hp, hr, hi, hd, hn⟩ :=
    (C9_createGame_contract ⟨.two⟩ [("p1", "Alice"), ("p2", "Bob")]
      (fun _ => 0)).2 gs hgs
  exact ⟨gs, hgs, hb, hp, hr, hi, hd, hn⟩

/-- A player holding 11 gems, as after an unresolved over-limit take. -/
def c2Player1 : Player :=
  ⟨"p1", "Alice", ⟨11, 0, 0, 0, 0, 0⟩, ⟨0, 0, 0, 0, 0⟩, [], [], [], 0⟩

/-- A state whose current player is flagged by `pendingGemDiscard`. -/
def c2State : GameState :=
  ⟨"g2", .playing, [c2Player1, wPlayer2], 0, ⟨4, 4, 4, 4, 4, 5⟩,
    ⟨[], [], []⟩, ⟨[], [], []⟩, [], 1, none, [], some "p1", none⟩

/-- C2 counterexample: `pendingGemDiscard` names the current player, who holds
more than 10 gems, yet `validateAction` accepts a further TAKE_THREE_GEMS from
that same player instead of rejecting it. -/
theorem C2_counterexample :
    c2State.pendingGemDiscard = some "p1" ∧
      getTotalGems c2State "p1" > MAX_GEMS ∧
      validateAction c2State (.takeThreeGems "p1" [.onyx]) =
        some ⟨true, none⟩ := by
  decide

/-- C2 (amended): `validateAction` never consults `pendingGemDiscard` or
`pendingNobleSelection` — its verdict is invariant under arbitrary values of
the two pending fields, so a main action issued by the flagged player (still
the current player, since the turn did not advance) is accepted whenever the
ordinary per-action checks pass; only the advisory `getAvailableActions`
query withholds main actions while a sub-flow is pending. -/
theorem C2_validateAction_ignores_pending (s : GameState) (a : PlayerAction)
    (x y : Option String) :
    validateAction
      { s with pendingGemDiscard := x, pendingNobleSelection := y } a =
      validateAction s a := by
  cases a <;> rfl

theorem determineWinners_ne_nil (s : GameState) (h : s.players ≠ []) :
    determineWinners s ≠ [] := by
  unfold determineWinners
  cases hps : s.players with
  | nil => exact absurd hps h
  | cons p0 rest =>
    dsimp only
    have hfold : rest.foldl (fun acc p => max acc p.prestigePoints) p0.prestigePoints
        = (rest.map (fun p => p.prestigePoints)).foldl max p0.prestigePoints := by
      rw [List.foldl_map]
    have hex : ∃ p, p ∈ p0 :: rest ∧ p.prestigePoints =
        rest.foldl (fun acc p => max acc p.prestigePoints) p0.prestigePoints := by
      rw [hfold]
      rcases (foldl_max_spec (rest.map (fun p => p.prestigePoints))
          p0.prestigePoints).2.2 with he | hm
      · exact ⟨p0, List.mem_cons_self _ _, he.symm⟩
      · obtain ⟨q, hq, hqe⟩ := List.mem_map.mp hm
        exact ⟨q, List.mem_cons_of_mem _ hq, hqe⟩
    cases hC : (p0 :: rest).filter (fun p => p.prestigePoints ==
        rest.foldl (fun acc p => max acc p.prestigePoints) p0.prestigePoints) with
    | nil =>
      exfalso
      obtain ⟨w, hw, hwe⟩ := hex
      have hwC : w ∈ (p0 :: rest).filter (fun p => p.prestigePoints ==
          rest.foldl (fun acc p => max acc p.prestigePoints) p0.prestigePoints) :=
        List.mem_filter.mpr ⟨hw, by rw [beq_iff_eq]; exact hwe⟩
      rw [hC] at hwC
      exact absurd hwC (List.not_mem_nil w)
    | cons c0 cs =>
      cases cs with
      | nil => simp
      | cons c1 cs' =>
        dsimp only
        have hfmin : (c1 :: cs').foldl
            (fun acc p => min acc (p.purchasedCards.length : Int))
            (c0.purchasedCards.length : Int) =
            ((c1 :: cs').map (fun p => (p.purchasedCards.length : Int))).foldl min
              (c0.purchasedCards.length : Int) := by
          rw [List.foldl_map]
        have hminex : ∃ q, q ∈ c0 :: c1 :: cs' ∧ (q.purchasedCards.length : Int) =
            (c1 :: cs').foldl (fun acc p => min acc (p.purchasedCards.length : Int))
              (c0.purchasedCards.length : Int) := by
          rw [hfmin]
          rcases (foldl_min_spec ((c1 :: cs').map
              (fun p => (p.purchasedCards.length : Int)))
              (c0.purchasedCards.length : Int)).2.2 with he | hm
          · exact ⟨c0, List.mem_cons_self _ _, he.symm⟩
          · obtain ⟨q, hq, hqe⟩ := List.mem_map.mp hm
            exact ⟨q, List.mem_cons_of_mem _ hq, hqe⟩
        obtain ⟨w, hwC, hwe⟩ := hminex
        intro hnil
        rw [List.map_eq_nil_iff] at hnil
        have hwF : w ∈ (c0 :: c1 :: cs').filter
            (fun p => (p.purchasedCards.length : Int) ==
              (c1 :: cs').foldl (fun acc p => min acc (p.purchasedCards.length : Int))
                (c0.purchasedCards.length : Int)) :=
          List.mem_filter.mpr ⟨hwC, by rw [beq_iff_eq]; exact hwe⟩
        rw [hnil] at hwF
        exact absurd hwF (List.not_mem_nil w)

/-- C7: whenever `advanceTurn` actually advances (phase not `ended`; player
list non-empty), the new `currentPlayerIndex` is `(previous + 1) mod
playerCount`; the round increments exactly when the index wraps to 0; and if
at that wrap the phase is `final_round`, the returned state has phase `ended`
with a non-empty `winners` list. -/
theorem C7_advanceTurn_contract (s : GameState) (hphase : s.phase ≠ .ended)
    (hplayers : s.players ≠ []) :
    (advanceTurn s).currentPlayerIndex =
        (s.currentPlayerIndex + 1) % s.players.length ∧
      (advanceTurn s).round =
        (if (s.currentPlayerIndex + 1) % s.players.length = 0 then s.round + 1
          else s.round) ∧
      ((s.currentPlayerIndex + 1) % s.players.length = 0 ∧
          s.phase = .final_round →
        (advanceTurn s).phase = .ended ∧ (advanceTurn s).winners ≠ []) := by
  unfold advanceTurn
  split
  · rename_i hend
    simp only [beq_iff_eq] at hend
    exact absurd hend hphase
  · dsimp only
    split
    · rename_i hw0
      have hw : (s.currentPlayerIndex + 1) % s.players.length = 0 := by
        simpa using hw0
      split
      · rename_i hf0
        have hf : s.phase = .final_round := by simpa using hf0
        unfold checkGameEnd
        rw [if_neg (by simp [hf])]
        refine ⟨rfl, ?_, fun _ => ⟨rfl, ?_⟩⟩
        · simp [hw]
        · exact determineWinners_ne_nil _ hplayers
      · rename_i hf0
        have hf : s.phase ≠ .final_round := by simpa using hf0
        refine ⟨rfl, ?_, fun hcon => absurd hcon.2 hf⟩
        simp [hw]
    · rename_i hw0
      have hw : ¬(s.currentPlayerIndex + 1) % s.players.length = 0 := by
        simpa using hw0
      refine ⟨rfl, ?_, fun hcon => absurd hcon.1 hw⟩
      simp [hw]

/-- A two-player state on the last seat of a final round. -/
def c7State : GameState :=
  { wState with phase := .final_round, currentPlayerIndex := 1 }

/-- Witness for C7: the wrap from the last seat of a final round. -/
theorem C7_witness :
    (advanceTurn c7State).currentPlayerIndex =
        (c7State.currentPlayerIndex + 1) % c7State.players.length ∧
      (advanceTurn c7State).round =
        (if (c7State.currentPlayerIndex + 1) % c7State.players.length = 0 then
          c7State.round + 1 else c7State.round) ∧
      ((c7State.currentPlayerIndex + 1) % c7State.players.length = 0 ∧
          c7State.phase = .final_round →
        (advanceTurn c7State).phase = .ended ∧
          (advanceTurn c7State).winners ≠ []) :=
  C7_advanceTurn_contract c7State (by decide) (by decide)

theorem nobles_checkGameEnd (s : GameState) : (checkGameEnd s).nobles = s.nobles := by
  unfold checkGameEnd
  split <;> rfl

theorem nobles_checkGameEndTrigger (s : GameState) :
    (checkGameEndTrigger s).nobles = s.nobles := by
  unfold checkGameEndTrigger
  split
  · rfl
  · split <;> rfl

theorem nobles_advanceTurn (s : GameState) : (advanceTurn s).nobles = s.nobles := by
  unfold advanceTurn
  split
  · rfl
  · dsimp only
    split
    · split
      · rw [nobles_checkGameEnd]
      · rfl
    · rfl

theorem nobles_checkGameEndAndAdvance (s : GameState) :
    (checkGameEndAndAdvance s).nobles = s.nobles := by
  unfold checkGameEndAndAdvance
  rw [nobles_advanceTurn, nobles_checkGameEndTrigger]

theorem pns_checkGameEnd (s : GameState) :
    (checkGameEnd s).pendingNobleSelection = s.pendingNobleSelection := by
  unfold checkGameEnd
  split <;> rfl

theorem pns_checkGameEndTrigger (s : GameState) :
    (checkGameEndTrigger s).pendingNobleSelection = s.pendingNobleSelection := by
  unfold checkGameEndTrigger
  split
  · rfl
  · split <;> rfl

theorem pns_advanceTurn (s : GameState) :
    (advanceTurn s).pendingNobleSelection = s.pendingNobleSelection := by
  unfold advanceTurn
  split
  · rfl
  · dsimp only
    split
    · split
      · rw [pns_checkGameEnd]
      · rfl
    · rfl

theorem pns_checkGameEndAndAdvance (s : GameState) :
    (checkGameEndAndAdvance s).pendingNobleSelection = s.pendingNobleSelection := by
  unfold checkGameEndAndAdvance
  rw [pns_advanceTurn, pns_checkGameEndTrigger]

theorem phase_checkGameEndTrigger_ne_ended (s : GameState)
    (h : s.phase ≠ .ended) : (checkGameEndTrigger s).phase ≠ .ended := by
  unfold checkGameEndTrigger
  split
  · exact h
  · split
    · simp
    · exact h

theorem cpi_checkGameEndTrigger (s : GameState) :
    (checkGameEndTrigger s).currentPlayerIndex = s.currentPlayerIndex := by
  unfold checkGameEndTrigger
  split
  · rfl
  · split <;> rfl

theorem currentPlayerIndex_advanceTurn (s : GameState) (h : s.phase ≠ .ended) :
    (advanceTurn s).currentPlayerIndex =
      (s.currentPlayerIndex + 1) % s.players.length := by
  unfold advanceTurn
  split
  · rename_i hend
    simp only [beq_iff_eq] at hend
    exact absurd hend h
  · dsimp only
    split
    · split
      · unfold checkGameEnd
        split <;> rfl
      · rfl
    · rfl

theorem length_modifyPlayer (ps : List Player) (pid : String)
    (f : Player → Player) : (modifyPlayer ps pid f).length = ps.length := by
  induction ps with
  | nil => rfl
  | cons p rest ih =>
    rw [modifyPlayer_cons]
    split
    · rfl
    · simp only [List.length_cons, ih]

theorem find?_map_modifyPlayer_apply {β : Type} (ps : List Player) (pid : String)
    (f : Player → Player) (π : Player → β) (hid : ∀ p, (f p).id = p.id) :
    ((modifyPlayer ps pid f).find? (fun p => p.id == pid)).map π =
      (ps.find? (fun p => p.id == pid)).map (fun p => π (f p)) := by
  induction ps with
  | nil => rfl
  | cons p rest ih =>
    cases hp : (p.id == pid) with
    | true =>
      rw [modifyPlayer_cons, if_pos hp]
      have hf' : ((f p).id == pid) = true := by rw [hid p]; exact hp
      rw [findPid_cons_pos (f p) rest pid hf', findPid_cons_pos p rest pid hp]
      rfl
    | false =>
      rw [modifyPlayer_cons, if_neg (by simp [hp])]
      rw [findPid_cons_neg p (modifyPlayer rest pid f) pid hp,
        findPid_cons_neg p rest pid hp]
      exact ih

theorem getPlayerById_map_checkGameEndAndAdvance {β : Type} (s : GameState)
    (pid : String) (π : Player → β) :
    (getPlayerById (checkGameEndAndAdvance s) pid).map π =
      (getPlayerById s pid).map π := by
  rw [getPlayerById_congr_players s _ (players_checkGameEndAndAdvance s) pid]

/-- C6: after the economic effect of a main action (or a resolving
DISCARD_GEMS) leaves the acting player at or under the gem limit, the engine
runs `checkNobleAndAdvance`: with exactly one eligible noble, that noble is
removed from the pool, appended to the player's nobles and its prestige
added, with no selection offered (`pendingNobleSelection` unchanged); with
more than one eligible noble, `pendingNobleSelection` is set to the player
and nothing else changes (in particular the turn does not advance); with none,
the turn proceeds through the normal end-of-turn pipeline. -/
theorem C6_noble_award_contract (s : GameState) (pid : String) :
    (∀ nid noble, getEligibleNobles s pid = [nid] →
      s.nobles.find? (fun n => n.id == nid) = some noble →
      (checkNobleAndAdvance s pid).nobles =
          s.nobles.eraseP (fun n => n.id == nid) ∧
        (getPlayerById (checkNobleAndAdvance s pid) pid).map (fun p => p.nobles) =
          (getPlayerById s pid).map (fun p => p.nobles ++ [noble]) ∧
        (getPlayerById (checkNobleAndAdvance s pid) pid).map
            (fun p => p.prestigePoints) =
          (getPlayerById s pid).map
            (fun p => p.prestigePoints + noble.prestigePoints) ∧
        (checkNobleAndAdvance s pid).pendingNobleSelection =
          s.pendingNobleSelection) ∧
      (1 < (getEligibleNobles s pid).length →
        checkNobleAndAdvance s pid = { s with pendingNobleSelection := some pid }) ∧
      (getEligibleNobles s pid = [] →
        checkNobleAndAdvance s pid = checkGameEndAndAdvance s) := by
  refine ⟨?_, ?_, ?_⟩
  · intro nid noble h1 h2
    have hre : checkNobleAndAdvance s pid =
        checkGameEndAndAdvance
          { updatePlayer s pid (fun p =>
              { p with
                nobles := p.nobles ++ [noble]
                prestigePoints := p.prestigePoints + noble.prestigePoints })
            with nobles := s.nobles.eraseP (fun n => n.id == nid) } := by
      unfold checkNobleAndAdvance
      rw [h1]
      dsimp only
      rw [h2]
    rw [hre]
    refine ⟨?_, ?_, ?_, ?_⟩
    · rw [nobles_checkGameEndAndAdvance]
    · rw [getPlayerById_map_checkGameEndAndAdvance]
      exact find?_map_modifyPlayer_apply s.players pid
        (fun p =>
          { p with
            nobles := p.nobles ++ [noble]
            prestigePoints := p.prestigePoints + noble.prestigePoints })
        (fun p => p.nobles) (fun p => rfl)
    · rw [getPlayerById_map_checkGameEndAndAdvance]
      exact find?_map_modifyPlayer_apply s.players pid
        (fun p =>
          { p with
            nobles := p.nobles ++ [noble]
            prestigePoints := p.prestigePoints + noble.prestigePoints })
        (fun p => p.prestigePoints) (fun p => rfl)
    · rw [pns_checkGameEndAndAdvance]
      rfl
  · intro hlen
    unfold checkNobleAndAdvance
    cases hE : getEligibleNobles s pid with
    | nil => rw [hE] at hlen; exact absurd hlen (by simp)
    | cons e1 es =>
      cases es with
      | nil => rw [hE] at hlen; exact absurd hlen (by simp)
      | cons e2 es' => rfl
  · intro hE
    unfold checkNobleAndAdvance
    rw [hE]

/-- A state in which the current player qualifies for exactly one noble. -/
def c6Player1 : Player :=
  ⟨"p1", "Alice", ⟨0, 0, 0, 0, 0, 0⟩, ⟨3, 0, 0, 0, 0⟩, [], [], [], 0⟩

/-- Test state for the single-eligible-noble branch. -/
def c6State : GameState :=
  { wState with players := [c6Player1, wPlayer2] }

/-- Witness for C6: the single-eligible-noble auto-award at a concrete state. -/
theorem C6_witness :
    (checkNobleAndAdvance c6State "p1").nobles =
        c6State.nobles.eraseP (fun n => n.id == "n1") ∧
      (getPlayerById (checkNobleAndAdvance c6State "p1") "p1").map
          (fun p => p.nobles) =
        (getPlayerById c6State "p1").map (fun p => p.nobles ++ [wNoble1]) ∧
      (getPlayerById (checkNobleAndAdvance c6State "p1") "p1").map
          (fun p => p.prestigePoints) =
        (getPlayerById c6State "p1").map
          (fun p => p.prestigePoints + wNoble1.prestigePoints) ∧
      (checkNobleAndAdvance c6State "p1").pendingNobleSelection =
        c6State.pendingNobleSelection :=
  (C6_noble_award_contract c6State "p1").1 "n1" wNoble1 (by decide) (by decide)

/-- C10: in any state with phase `playing` or `final_round`, a SELECT_NOBLE
action by any player whose bonuses meet every requirement of a noble still in
the pool is accepted by `validateAction` — the validator checks neither turn
order nor `pendingNobleSelection` — and applying it removes the noble, adds
its prestige to that player, appends it to the player's nobles, and advances
`currentPlayerIndex`. -/
theorem C10_selectNoble_bypasses_turn_order (s : GameState) (pid nid : String)
    (p : Player) (noble : Noble)
    (hphase : s.phase = .playing ∨ s.phase = .final_round)
    (hp : getPlayerById s pid = some p)
    (hn : s.nobles.find? (fun n => n.id == nid) = some noble)
    (hreq : ∀ c ∈ gemColors, noble.requirements.get c ≤ p.bonuses.get c) :
    validateAction s (.selectNoble pid nid) = some ⟨true, none⟩ ∧
      ∃ s', applyAction s (.selectNoble pid nid) = some s' ∧
        s'.nobles = s.nobles.eraseP (fun n => n.id == nid) ∧
        (getPlayerById s' pid).map (fun q => q.prestigePoints) =
          some (p.prestigePoints + noble.prestigePoints) ∧
        (getPlayerById s' pid).map (fun q => q.nobles) =
          some (p.nobles ++ [noble]) ∧
        s'.currentPlayerIndex = (s.currentPlayerIndex + 1) % s.players.length := by
  have hin : isGameInProgress s = true := by
    unfold isGameInProgress
    rcases hphase with h | h <;> simp [h]
  have hany : (gemColors.any
      (fun c => p.bonuses.get c < noble.requirements.get c)) = false := by
    simp only [List.any_eq_false, decide_eq_true_eq]
    intro c hc
    exact not_lt.mpr (hreq c hc)
  have hval : validateAction s (.selectNoble pid nid) = some ⟨true, none⟩ := by
    unfold validateAction
    rw [if_neg (by simp [hin])]
    dsimp only
    unfold validateSelectNoble
    rw [hp]
    dsimp only
    rw [hn]
    dsimp only
    rw [if_neg (by simp [hany])]
    rfl
  refine ⟨hval, ?_⟩
  have happ : applyAction s (.selectNoble pid nid) = applySelectNoble s pid nid := by
    unfold applyAction
    rw [hval]
    rfl
  have hsel : applySelectNoble s pid nid =
      some (checkGameEndAndAdvance
        { updatePlayer s pid (fun q =>
            { q with
              nobles := q.nobles ++ [noble]
              prestigePoints := q.prestigePoints + noble.prestigePoints })
          with
          nobles := s.nobles.eraseP (fun n => n.id == nid)
          pendingNobleSelection := none }) := by
    unfold applySelectNoble
    rw [hn]
    dsimp only
    rw [hp]
  have hp' : s.players.find? (fun q => q.id == pid) = some p := hp
  refine ⟨_, by rw [happ, hsel], ?_, ?_, ?_, ?_⟩
  · rw [nobles_checkGameEndAndAdvance]
  · rw [getPlayerById_map_checkGameEndAndAdvance]
    refine (find?_map_modifyPlayer_apply s.players pid (fun q =>
      { q with
        nobles := q.nobles ++ [noble]
        prestigePoints := q.prestigePoints + noble.prestigePoints })
      (fun q => q.prestigePoints) (fun q => rfl)).trans ?_
    rw [hp']
    rfl
  · rw [getPlayerById_map_checkGameEndAndAdvance]
    refine (find?_map_modifyPlayer_apply s.players pid (fun q =>
      { q with
        nobles := q.nobles ++ [noble]
        prestigePoints := q.prestigePoints + noble.prestigePoints })
      (fun q => q.nobles) (fun q => rfl)).trans ?_
    rw [hp']
    rfl
  · unfold checkGameEndAndAdvance
    rw [currentPlayerIndex_advanceTurn]
    · rw [cpi_checkGameEndTrigger, players_checkGameEndTrigger]
      show (s.currentPlayerIndex + 1) %
        (modifyPlayer s.players pid _).length = _
      rw [length_modifyPlayer]
    · apply phase_checkGameEndTrigger_ne_ended
      show s.phase ≠ .ended
      rcases hphase with h | h <;> simp [h]

/-- Test state for C10: the eligible player is not the current player and no
noble selection is pending. -/
def c10State : GameState :=
  { c6State with currentPlayerIndex := 1 }

/-- Witness for C10: out-of-turn SELECT_NOBLE accepted and applied. -/
theorem C10_witness :
    validateAction c10State (.selectNoble "p1" "n1") = some ⟨true, none⟩ ∧
      ∃ s', applyAction c10State (.selectNoble "p1" "n1") = some s' ∧
        s'.nobles = c10State.nobles.eraseP (fun n => n.id == "n1") ∧
        (getPlayerById s' "p1").map (fun q => q.prestigePoints) =
          some (c6Player1.prestigePoints + wNoble1.prestigePoints) ∧
        (getPlayerById s' "p1").map (fun q => q.nobles) =
          some (c6Player1.nobles ++ [wNoble1]) ∧
        s'.currentPlayerIndex =
          (c10State.currentPlayerIndex + 1) % c10State.players.length :=
  C10_selectNoble_bypasses_turn_order c10State "p1" "n1" c6Player1 wNoble1
    (Or.inl rfl) (by decide) (by decide) (by decide)

/-- The observable fields, relevant to the over-limit claim, that a main
action's economic effect leaves untouched. -/
def EconPreserves (s s1 : GameState) (pid : String) : Prop :=
  s1.currentPlayerIndex = s.currentPlayerIndex ∧
  s1.round = s.round ∧
  s1.nobles = s.nobles ∧
  s1.pendingNobleSelection = s.pendingNobleSelection ∧
  (getPlayerById s1 pid).map (fun p => p.nobles) =
    (getPlayerById s pid).map (fun p => p.nobles)

theorem econPreserves_refl (s : GameState) (pid : String) :
    EconPreserves s s pid :=
  ⟨rfl, rfl, rfl, rfl, rfl⟩

theorem econPreserves_trans (s s1 s2 : GameState) (pid : String)
    (h1 : EconPreserves s s1 pid) (h2 : EconPreserves s1 s2 pid) :
    EconPreserves s s2 pid :=
  ⟨h2.1.trans h1.1, h2.2.1.trans h1.2.1, h2.2.2.1.trans h1.2.2.1,
    h2.2.2.2.1.trans h1.2.2.2.1, h2.2.2.2.2.trans h1.2.2.2.2⟩

theorem econPreserves_moveBankToPlayer (s : GameState) (pid2 : String)
    (t : GemType) (n : Int) (pid : String) :
    EconPreserves s (moveBankToPlayer s pid2 t n) pid := by
  refine ⟨rfl, rfl, rfl, rfl, ?_⟩
  exact find?_map_modifyPlayer s.players pid2 pid _ (fun p => p.nobles)
    (fun p => rfl) (fun p => rfl)

theorem econPreserves_movePlayerToBank (s : GameState) (pid2 : String)
    (t : GemType) (n : Int) (pid : String) :
    EconPreserves s (movePlayerToBank s pid2 t n) pid := by
  rw [movePlayerToBank_eq]
  exact econPreserves_moveBankToPlayer s pid2 t (-n) pid

theorem econPreserves_updatePlayer (s : GameState) (pid2 : String)
    (f : Player → Player) (pid : String) (hid : ∀ p, (f p).id = p.id)
    (hn : ∀ p, (f p).nobles = p.nobles) :
    EconPreserves s (updatePlayer s pid2 f) pid := by
  refine ⟨rfl, rfl, rfl, rfl, ?_⟩
  exact find?_map_modifyPlayer s.players pid2 pid f (fun p => p.nobles) hid hn

theorem econPreserves_foldMoveBank (gs : List GemColor) (s : GameState)
    (pid : String) :
    EconPreserves s
      (gs.foldl (fun st g => moveBankToPlayer st pid (.color g) 1) s) pid := by
  induction gs generalizing s with
  | nil => exact econPreserves_refl s pid
  | cons g rest ih =>
    rw [List.foldl_cons]
    exact econPreserves_trans s _ _ pid
      (econPreserves_moveBankToPlayer s pid _ 1 pid)
      (ih (moveBankToPlayer s pid (.color g) 1))

theorem econPreserves_foldPay (cs : List GemColor) (payment : Payment)
    (s : GameState) (pid : String) :
    EconPreserves s
      (cs.foldl (fun st c => movePlayerToBank st pid (.color c)
        (payment.gems.get c)) s) pid := by
  induction cs generalizing s with
  | nil => exact econPreserves_refl s pid
  | cons c rest ih =>
    rw [List.foldl_cons]
    exact econPreserves_trans s _ _ pid
      (econPreserves_movePlayerToBank s pid _ _ pid)
      (ih (movePlayerToBank s pid (.color c) (payment.gems.get c)))

/-- Outcome of `finishTurn` when the acting player is over the gem limit:
the returned state is the pre-`finishTurn` state with only
`pendingGemDiscard` set. -/
theorem finishTurn_over (s1 : GameState) (pid : String) (s' : GameState)
    (h : finishTurn s1 pid = some s')
    (hover : getTotalGems s' pid > MAX_GEMS) :
    s' = { s1 with pendingGemDiscard := some pid } := by
  unfold finishTurn at h
  cases hp : getPlayerById s1 pid with
  | none => rw [hp] at h; exact absurd h (by simp)
  | some p =>
    rw [hp] at h
    dsimp only at h
    split at h
    · cases h
      rfl
    · rename_i hle
      cases h
      rw [getTotalGems_checkNobleAndAdvance] at hover
      unfold getTotalGems at hover
      rw [hp] at hover
      exact absurd hover hle

theorem overOutcome_of_econ (s s2 : GameState) (pid : String) (s' : GameState)
    (hE : EconPreserves s s2 pid) (h : finishTurn s2 pid = some s')
    (hover : getTotalGems s' pid > MAX_GEMS) :
    s'.pendingGemDiscard = some pid ∧
      s'.currentPlayerIndex = s.currentPlayerIndex ∧
      s'.round = s.round ∧
      s'.nobles = s.nobles ∧
      s'.pendingNobleSelection = s.pendingNobleSelection ∧
      (getPlayerById s' pid).map (fun p => p.nobles) =
        (getPlayerById s pid).map (fun p => p.nobles) := by
  have he := finishTurn_over s2 pid s' h hover
  subst he
  exact ⟨rfl, hE.1, hE.2.1, hE.2.2.1, hE.2.2.2.1, hE.2.2.2.2⟩

theorem reserveDraw_snd (s : GameState) (cid : Option String) (tier : Tier) :
    ∃ m d, (reserveDraw s cid tier).2 = { s with market := m, decks := d } := by
  unfold reserveDraw
  cases cid with
  | some c =>
    dsimp only
    split
    · exact ⟨_, _, rfl⟩
    · exact ⟨_, _, rfl⟩
  | none =>
    dsimp only
    split
    · exact ⟨s.market, s.decks, rfl⟩
    · exact ⟨_, _, rfl⟩

theorem econPreserves_reserveDraw (s : GameState) (cid : Option String)
    (tier : Tier) (pid : String) :
    EconPreserves s (reserveDraw s cid tier).2 pid := by
  obtain ⟨m, d, hmd⟩ := reserveDraw_snd s cid tier
  rw [hmd]
  exact ⟨rfl, rfl, rfl, rfl, rfl⟩

theorem over_applyTakeThreeGems (s : GameState) (pid : String)
    (gems : List GemColor) (s' : GameState)
    (h : applyTakeThreeGems s pid gems = some s')
    (hover : getTotalGems s' pid > MAX_GEMS) :
    s'.pendingGemDiscard = some pid ∧
      s'.currentPlayerIndex = s.currentPlayerIndex ∧
      s'.round = s.round ∧
      s'.nobles = s.nobles ∧
      s'.pendingNobleSelection = s.pendingNobleSelection ∧
      (getPlayerById s' pid).map (fun p => p.nobles) =
        (getPlayerById s pid).map (fun p => p.nobles) := by
  unfold applyTakeThreeGems at h
  cases hp : getPlayerById s pid with
  | none => rw [hp] at h; exact absurd h (by simp)
  | some p =>
    rw [hp] at h
    dsimp only at h
    rw [← hp]
    exact overOutcome_of_econ s _ pid s' (econPreserves_foldMoveBank gems s pid)
      h hover

theorem over_applyTakeTwoGems (s : GameState) (pid : String) (gem : GemColor)
    (s' : GameState) (h : applyTakeTwoGems s pid gem = some s')
    (hover : getTotalGems s' pid > MAX_GEMS) :
    s'.pendingGemDiscard = some pid ∧
      s'.currentPlayerIndex = s.currentPlayerIndex ∧
      s'.round = s.round ∧
      s'.nobles = s.nobles ∧
      s'.pendingNobleSelection = s.pendingNobleSelection ∧
      (getPlayerById s' pid).map (fun p => p.nobles) =
        (getPlayerById s pid).map (fun p => p.nobles) := by
  unfold applyTakeTwoGems at h
  cases hp : getPlayerById s pid with
  | none => rw [hp] at h; exact absurd h (by simp)
  | some p =>
    rw [hp] at h
    dsimp only at h
    rw [← hp]
    exact overOutcome_of_econ s _ pid s'
      (econPreserves_moveBankToPlayer s pid _ 2 pid) h hover

theorem over_applyReserveCard (s : GameState) (pid : String)
    (cardId : Option String) (tier : Tier) (s' : GameState)
    (h : applyReserveCard s pid cardId tier = some s')
    (hover : getTotalGems s' pid > MAX_GEMS) :
    s'.pendingGemDiscard = some pid ∧
      s'.currentPlayerIndex = s.currentPlayerIndex ∧
      s'.round = s.round ∧
      s'.nobles = s.nobles ∧
      s'.pendingNobleSelection = s.pendingNobleSelection ∧
      (getPlayerById s' pid).map (fun p => p.nobles) =
        (getPlayerById s pid).map (fun p => p.nobles) := by
  unfold applyReserveCard at h
  cases hp : getPlayerById s pid with
  | none => rw [hp] at h; exact absurd h (by simp)
  | some p =>
    rw [hp] at h
    dsimp only at h
    rw [← hp]
    have hE1 := econPreserves_reserveDraw s cardId tier pid
    cases hdr : (reserveDraw s cardId tier).1 with
    | some c =>
      rw [hdr] at h
      dsimp only at h
      have hE2 : EconPreserves s (updatePlayer (reserveDraw s cardId tier).2 pid
          (fun q => { q with reservedCards := q.reservedCards ++ [c] })) pid :=
        econPreserves_trans s _ _ pid hE1
          (econPreserves_updatePlayer _ pid _ pid (fun q => rfl) (fun q => rfl))
      split at h
      · exact overOutcome_of_econ s _ pid s'
          (econPreserves_trans s _ _ pid hE2
            (econPreserves_moveBankToPlayer _ pid .gold 1 pid)) h hover
      · exact overOutcome_of_econ s _ pid s' hE2 h hover
    | none =>
      rw [hdr] at h
      dsimp only at h
      split at h
      · exact overOutcome_of_econ s _ pid s'
          (econPreserves_trans s _ _ pid hE1
            (econPreserves_moveBankToPlayer _ pid .gold 1 pid)) h hover
      · exact overOutcome_of_econ s _ pid s' hE1 h hover

theorem over_purchaseTail (s s1 : GameState) (pid : String) (payment : Payment)
    (card : DevelopmentCard) (fr : Bool) (s' : GameState)
    (hE1 : EconPreserves s s1 pid)
    (h : finishTurn
      (let s4 := updatePlayer
          (movePlayerToBank
            (gemColors.foldl
              (fun st c => movePlayerToBank st pid (.color c) (payment.gems.get c)) s1)
            pid .gold payment.gold)
          pid (fun p =>
            { p with
              purchasedCards := p.purchasedCards ++ [card]
              bonuses := p.bonuses.add card.bonus 1
              prestigePoints := p.prestigePoints + card.prestigePoints });
        if fr then s4
        else
          let fm := refillMarketSlot s4.decks s4.market card.tier
          { s4 with market := fm.2, decks := fm.1 }) pid = some s')
    (hover : getTotalGems s' pid > MAX_GEMS) :
    s'.pendingGemDiscard = some pid ∧
      s'.currentPlayerIndex = s.currentPlayerIndex ∧
      s'.round = s.round ∧
      s'.nobles = s.nobles ∧
      s'.pendingNobleSelection = s.pendingNobleSelection ∧
      (getPlayerById s' pid).map (fun p => p.nobles) =
        (getPlayerById s pid).map (fun p => p.nobles) := by
  have hE2 : EconPreserves s
      (gemColors.foldl
        (fun st c => movePlayerToBank st pid (.color c) (payment.gems.get c)) s1)
      pid :=
    econPreserves_trans s _ _ pid hE1 (econPreserves_foldPay gemColors payment s1 pid)
  have hE3 : EconPreserves s
      (movePlayerToBank
        (gemColors.foldl
          (fun st c => movePlayerToBank st pid (.color c) (payment.gems.get c)) s1)
        pid .gold payment.gold) pid :=
    econPreserves_trans s _ _ pid hE2 (econPreserves_movePlayerToBank _ pid _ _ pid)
  have hE4 : EconPreserves s
      (updatePlayer
        (movePlayerToBank
          (gemColors.foldl
            (fun st c => movePlayerToBank st pid (.color c) (payment.gems.get c)) s1)
          pid .gold payment.gold)
        pid (fun p =>
          { p with
            purchasedCards := p.purchasedCards ++ [card]
            bonuses := p.bonuses.add card.bonus 1
            prestigePoints := p.prestigePoints + card.prestigePoints })) pid :=
    econPreserves_trans s _ _ pid hE3
      (econPreserves_updatePlayer _ pid _ pid (fun q => rfl) (fun q => rfl))
  dsimp only at h
  split at h
  · exact overOutcome_of_econ s _ pid s' hE4 h hover
  · refine overOutcome_of_econ s _ pid s'
      (econPreserves_trans s _ _ pid hE4 ?_) h hover
    exact ⟨rfl, rfl, rfl, rfl, rfl⟩

theorem over_applyPurchaseCard (s : GameState) (pid cid : String)
    (s' : GameState) (h : applyPurchaseCard s pid cid = some s')
    (hover : getTotalGems s' pid > MAX_GEMS) :
    s'.pendingGemDiscard = some pid ∧
      s'.currentPlayerIndex = s.currentPlayerIndex ∧
      s'.round = s.round ∧
      s'.nobles = s.nobles ∧
      s'.pendingNobleSelection = s.pendingNobleSelection ∧
      (getPlayerById s' pid).map (fun p => p.nobles) =
        (getPlayerById s pid).map (fun p => p.nobles) := by
  unfold applyPurchaseCard at h
  cases hp : getPlayerById s pid with
  | none => rw [hp] at h; exact absurd h (by simp)
  | some player =>
    rw [hp] at h
    dsimp only at h
    rw [← hp]
    cases hpay : calculatePayment s pid cid with
    | none => rw [hpay] at h; exact absurd h (by simp)
    | some payment =>
      rw [hpay] at h
      dsimp only at h
      cases hrm : (removeCardFromMarket s.market cid).1 with
      | some c =>
        rw [hrm] at h
        dsimp only at h
        exact over_purchaseTail s
          { s with market := (removeCardFromMarket s.market cid).2 }
          pid payment c false s' ⟨rfl, rfl, rfl, rfl, rfl⟩ h hover
      | none =>
        rw [hrm] at h
        dsimp only at h
        cases hf : player.reservedCards.find? (fun q => q.id == cid) with
        | none => rw [hf] at h; exact absurd h (by simp)
        | some c =>
          rw [hf] at h
          dsimp only at h
          exact over_purchaseTail s
            (updatePlayer s pid (fun q =>
              { q with
                reservedCards := q.reservedCards.eraseP (fun r => r.id == cid) }))
            pid payment c true s'
            (econPreserves_updatePlayer s pid _ pid (fun q => rfl) (fun q => rfl))
            h hover

/-- C5: any main action whose economic effect leaves the acting player above
10 total gems returns a state with `pendingGemDiscard` set to that player,
`currentPlayerIndex` and `round` unchanged, no noble awarded (both the pool
and the player's nobles are untouched), and `pendingNobleSelection` still
unset. -/
theorem C5_over_limit_pauses_turn (s : GameState) (a : PlayerAction)
    (s' : GameState) (hmain : a.isMain = true)
    (h : applyAction s a = some s')
    (hover : getTotalGems s' a.playerId > MAX_GEMS)
    (hpn : s.pendingNobleSelection = none) :
    s'.pendingGemDiscard = some a.playerId ∧
      s'.currentPlayerIndex = s.currentPlayerIndex ∧
      s'.round = s.round ∧
      s'.nobles = s.nobles ∧
      (getPlayerById s' a.playerId).map (fun p => p.nobles) =
        (getPlayerById s a.playerId).map (fun p => p.nobles) ∧
      s'.pendingNobleSelection = none := by
  unfold applyAction at h
  cases hv : validateAction s a with
  | none => rw [hv] at h; exact absurd h (by simp)
  | some v =>
    rw [hv] at h
    dsimp only at h
    split at h
    · cases a with
      | takeThreeGems pid gems =>
        obtain ⟨h1, h2, h3, h4, h5, h6⟩ :=
          over_applyTakeThreeGems s pid gems s' h hover
        exact ⟨h1, h2, h3, h4, h6, h5.trans hpn⟩
      | takeTwoGems pid gem =>
        obtain ⟨h1, h2, h3, h4, h5, h6⟩ :=
          over_applyTakeTwoGems s pid gem s' h hover
        exact ⟨h1, h2, h3, h4, h6, h5.trans hpn⟩
      | reserveCard pid cid tier =>
        obtain ⟨h1, h2, h3, h4, h5, h6⟩ :=
          over_applyReserveCard s pid cid tier s' h hover
        exact ⟨h1, h2, h3, h4, h6, h5.trans hpn⟩
      | purchaseCard pid cid =>
        obtain ⟨h1, h2, h3, h4, h5, h6⟩ :=
          over_applyPurchaseCard s pid cid s' h hover
        exact ⟨h1, h2, h3, h4, h6, h5.trans hpn⟩
      | selectNoble pid nid => exact absurd hmain (by simp [PlayerAction.isMain])
      | discardGems pid gems => exact absurd hmain (by simp [PlayerAction.isMain])
    · exact absurd h (by simp)

/-- A player at 9 gems, one take-three short of the limit breach. -/
def c5Player1 : Player :=
  ⟨"p1", "Alice", ⟨9, 0, 0, 0, 0, 0⟩, ⟨0, 0, 0, 0, 0⟩, [], [], [], 0⟩

/-- Test state for C5. -/
def c5State : GameState :=
  { wState with players := [c5Player1, wPlayer2] }

/-- Witness for C5: a take-three that pushes the player from 9 to 12 gems. -/
theorem C5_witness :
    ∃ s', applyAction c5State
        (.takeThreeGems "p1" [.emerald, .diamond, .sapphire]) = some s' ∧
      s'.pendingGemDiscard = some "p1" ∧
      s'.currentPlayerIndex = c5State.currentPlayerIndex ∧
      s'.round = c5State.round ∧
      s'.nobles = c5State.nobles ∧
      (getPlayerById s' "p1").map (fun p => p.nobles) =
        (getPlayerById c5State "p1").map (fun p => p.nobles) ∧
      s'.pendingNobleSelection = none := by
  have hs : (applyAction c5State
      (.takeThreeGems "p1" [.emerald, .diamond, .sapphire])).isSome = true := by
    decide
  obtain ⟨s', h⟩ := Option.isSome_iff_exists.mp hs
  have h12 : getTotalGems s' "p1" = 12 := by
    have h2 : (applyAction c5State
        (.takeThreeGems "p1" [.emerald, .diamond, .sapphire])).map
          (fun t => getTotalGems t "p1") = some 12 := by decide
    rw [h] at h2
    exact Option.some_inj.mp h2
  have hover : getTotalGems s' "p1" > MAX_GEMS := by
    rw [h12]
    decide
  obtain ⟨h1, h2, h3, h4, h5, h6⟩ :=
    C5_over_limit_pauses_turn c5State
      (.takeThreeGems "p1" [.emerald, .diamond, .sapphire]) s' rfl h hover rfl
  exact ⟨s', h, h1, h2, h3, h4, h5, h6⟩

end Splendor
